import Mathlib

/-!
Verification of the StudySpark server (storage repository and AI gateway)
against its natural-language specification.

The TypeScript source is shallowly embedded:

* JS `Map<string, T>` collections become `List T` whose entries carry their
  own key in an `id` field; `Map.get` / `Map.set` / `Map.delete` become
  `mapGet` / `mapSet` / `mapDelete` below.
* `randomUUID()` and `new Date().toISOString()` are modelled by passing the
  fresh identifier / current time string explicitly as parameters.
* JS `x || d` on strings (empty string is falsy) is `jsOrStr`; on numbers
  (`0` is falsy) it is `jsOrInt`.
* Postgres tables in the `DatabaseStorage` backend are modelled as the same
  row lists; `insert ... returning` appends rows, `update ... where eq`
  rewrites the matching rows, `delete ... where eq` filters them out.
* ISO timestamp strings are compared lexicographically, which on such
  strings coincides with chronological order.
* The LLM chat-completion call is modelled by taking the parsed JSON
  response object (fields that may be absent are `Option`s) as an argument.
-/

set_option autoImplicit false

/-- JS `x || d` for strings: the empty string is falsy. -/
def jsOrStr (o : Option String) (d : String) : String :=
  match o with
  | some s => if s = "" then d else s
  | none => d

/-- JS `x || d` for integer-valued fields: `0` is falsy. -/
def jsOrInt (o : Option Int) (d : Int) : Int :=
  match o with
  | some t => if t = 0 then d else t
  | none => d

/-- `Map.get`: first entry whose key equals `id`. -/
def mapGet {α : Type} (key : α → String) (l : List α) (id : String) : Option α :=
  l.find? (fun x => key x = id)

/-- `Map.set`: replace the entry with key `id` if present, else append. -/
def mapSet {α : Type} (key : α → String) (l : List α) (id : String) (v : α) : List α :=
  if l.any (fun x => key x = id) then l.map (fun x => if key x = id then v else x)
  else l ++ [v]

/-- `Map.delete`: remove the entry with key `id`. -/
def mapDelete {α : Type} (key : α → String) (l : List α) (id : String) : List α :=
  l.filter (fun x => key x ≠ id)

/-- Row type of the `subjects` table / entries of `MemStorage.subjects`. -/
structure Subject where
  id : String
  name : String
  icon : String
  color : String
  notesCount : Int
  flashcardsCount : Int
  questionsCount : Int
  lastAccessed : String
deriving DecidableEq

/-- Row type of the `notes` table / entries of `MemStorage.notes`. -/
structure Note where
  id : String
  subjectId : String
  title : String
  content : String
  fileType : String
  fileName : Option String
  createdAt : String
deriving DecidableEq

/-- A `{term, definition}` pair inside a summary. -/
structure DefinitionEntry where
  term : String
  definition : String
deriving DecidableEq

/-- Row type of the `summaries` table / entries of `MemStorage.summaries`. -/
structure Summary where
  id : String
  noteId : String
  subjectId : String
  title : String
  keyPoints : List String
  definitions : List DefinitionEntry
  formulas : List String
  mainConcepts : List String
  fullSummary : String
  createdAt : String
deriving DecidableEq

/-- Row type of the `flashcards` table / entries of `MemStorage.flashcards`. -/
structure Flashcard where
  id : String
  subjectId : String
  summaryId : Option String
  front : String
  back : String
  difficulty : String
  lastReviewed : Option String
  timesReviewed : Int
deriving DecidableEq

/-- Row type of the `questions` table / entries of `MemStorage.questions`. -/
structure Question where
  id : String
  subjectId : String
  summaryId : Option String
  type : String
  question : String
  options : Option (List String)
  answer : String
  explanation : Option String
  difficulty : String
deriving DecidableEq

/-- An embedded task of a study plan (`studyTaskType` in the schema). -/
structure StudyTask where
  id : String
  topic : String
  subject : String
  duration : String
  priority : String
  completed : Bool
  date : String
  timeSlot : Option String
deriving DecidableEq

/-- Row type of the `study_plans` table / entries of `MemStorage.studyPlans`. -/
structure StudyPlan where
  id : String
  title : String
  description : String
  startDate : String
  endDate : String
  tasks : List StudyTask
  createdAt : String
deriving DecidableEq

/-- `InsertNote`: the note-creation payload (id and createdAt omitted). -/
structure InsertNote where
  subjectId : String
  title : String
  content : String
  fileType : Option String
  fileName : Option String
deriving DecidableEq

/-- `InsertFlashcard`: the flashcard-creation payload
(id, lastReviewed and timesReviewed omitted). -/
structure InsertFlashcard where
  subjectId : String
  summaryId : Option String
  front : String
  back : String
  difficulty : Option String
deriving DecidableEq

/-- `Partial<Flashcard>` as sent to `updateFlashcard`.  A present field
overrides the stored one under JS spread.  The `id` field of the partial is
not modelled: the storage key is the route's `id` argument. -/
structure FlashcardPatch where
  subjectId : Option String := none
  summaryId : Option (Option String) := none
  front : Option String := none
  back : Option String := none
  difficulty : Option String := none
  lastReviewed : Option (Option String) := none
  timesReviewed : Option Int := none
deriving DecidableEq

/-- `Partial<StudyTask>` as sent to `updateStudyPlanTask`.  The `id` field of
the partial is not modelled (the task is matched by the route's taskId). -/
structure StudyTaskPatch where
  topic : Option String := none
  subject : Option String := none
  duration : Option String := none
  priority : Option String := none
  completed : Option Bool := none
  date : Option String := none
  timeSlot : Option String := none
deriving DecidableEq

/-- JS `{ ...f, ...d }` for a flashcard and a partial. -/
def Flashcard.mergePatch (f : Flashcard) (d : FlashcardPatch) : Flashcard :=
  { id := f.id
    subjectId := d.subjectId.getD f.subjectId
    summaryId := d.summaryId.getD f.summaryId
    front := d.front.getD f.front
    back := d.back.getD f.back
    difficulty := d.difficulty.getD f.difficulty
    lastReviewed := d.lastReviewed.getD f.lastReviewed
    timesReviewed := d.timesReviewed.getD f.timesReviewed }

/-- JS `{ ...t, ...data }` for a study task and a partial. -/
def StudyTask.mergePatch (t : StudyTask) (d : StudyTaskPatch) : StudyTask :=
  { id := t.id
    topic := d.topic.getD t.topic
    subject := d.subject.getD t.subject
    duration := d.duration.getD t.duration
    priority := d.priority.getD t.priority
    completed := d.completed.getD t.completed
    date := d.date.getD t.date
    timeSlot := match d.timeSlot with
      | some s => some s
      | none => t.timeSlot }

/-- A flashcard produced by the AI gateway (`FlashcardResult`). -/
structure FlashcardResult where
  front : String
  back : String
deriving DecidableEq

/-- The parsed JSON object of the model's reply to the flashcards prompt;
the `flashcards` field may be absent. -/
structure FlashcardsResponse where
  flashcards : Option (List FlashcardResult)
deriving DecidableEq

/-- `generateFlashcards`: `Math.min(count, 10)`, the clamp applied to the
requested count before prompting. -/
def generateFlashcardsFinalCount (count : Nat) : Nat :=
  min count 10

/-- The user prompt built by `generateFlashcards`: the clamped count is
interpolated twice and the content is truncated to 2000 characters
(`content.substring(0, 2000)`). -/
def generateFlashcardsPrompt (content : String) (count : Nat) : String :=
  "Create " ++
  (toString (generateFlashcardsFinalCount count) ++
  (" flashcards from the following study material. Each flashcard should test understanding of a key concept.\n\nContent:\n" ++
  (content.take 2000 ++
  ("\n\nRespond with valid JSON only in this format:\n\x7b\n  \"flashcards\": [\n    \x7b\"front\": \"Question or term\", \"back\": \"Answer or definition\"\x7d,\n    ...\n  ]\n\x7d\n\nRules:\n- Create exactly " ++
  (toString (generateFlashcardsFinalCount count) ++
  " flashcards\n- Questions should be clear and specific\n- Answers should be concise but complete\n- Cover the most important concepts\n- Include a mix of definitions, concepts, and application questions")))))

/-- `generateFlashcards` after a successful call and JSON parse:
`return result.flashcards || []` (an absent list defaults to `[]`,
a present list is returned unchanged, with no truncation). -/
def generateFlashcards (content : String) (count : Nat)
    (resp : FlashcardsResponse) : List FlashcardResult :=
  resp.flashcards.getD []

/-- The result record of `summarizeContent` (`SummaryResult`): every field
is total, never null. -/
structure SummaryResult where
  keyPoints : List String
  definitions : List DefinitionEntry
  formulas : List String
  mainConcepts : List String
  fullSummary : String
deriving DecidableEq

/-- The parsed JSON object of the model's reply to the summarize prompt;
each expected field may be absent. -/
structure SummaryResponse where
  keyPoints : Option (List String) := none
  definitions : Option (List DefinitionEntry) := none
  formulas : Option (List String) := none
  mainConcepts : Option (List String) := none
  fullSummary : Option String := none
deriving DecidableEq

/-- `summarizeContent` after a successful call and JSON parse: each missing
collection defaults to `[]` (`result.x || []`; a present list, even empty,
is truthy and kept) and a missing or empty `fullSummary` defaults to the
literal string (`result.fullSummary || "Summary not available."`). -/
def summarizeContent (resp : SummaryResponse) : SummaryResult :=
  { keyPoints := resp.keyPoints.getD []
    definitions := resp.definitions.getD []
    formulas := resp.formulas.getD []
    mainConcepts := resp.mainConcepts.getD []
    fullSummary := jsOrStr resp.fullSummary "Summary not available." }

/-- The state of either storage backend: one row list per entity family
(`MemStorage`'s six maps, or the six tables of the relational backend). -/
structure StorageState where
  subjects : List Subject
  notes : List Note
  summaries : List Summary
  flashcards : List Flashcard
  questions : List Question
  studyPlans : List StudyPlan
deriving DecidableEq

/-- The ordering used where summaries are sorted by `createdAt` descending
(JS comparator `new Date(b.createdAt).getTime() - new Date(a.createdAt).getTime()`,
modelled lexicographically on the ISO strings). -/
def summaryCreatedDesc (a b : Summary) : Prop := b.createdAt ≤ a.createdAt

/-- The ordering used where study plans are sorted by `createdAt` descending. -/
def planCreatedDesc (a b : StudyPlan) : Prop := b.createdAt ≤ a.createdAt

/-- The ordering of `upcomingTasks`: ascending by `date`
(JS comparator `a.date.localeCompare(b.date)`). -/
def taskDateLe (a b : StudyTask) : Prop := a.date ≤ b.date

instance : DecidableRel summaryCreatedDesc :=
  fun a b => inferInstanceAs (Decidable (b.createdAt ≤ a.createdAt))

instance : DecidableRel planCreatedDesc :=
  fun a b => inferInstanceAs (Decidable (b.createdAt ≤ a.createdAt))

instance : DecidableRel taskDateLe :=
  fun a b => inferInstanceAs (Decidable (a.date ≤ b.date))

instance : IsTotal StudyTask taskDateLe :=
  ⟨fun a b => le_total a.date b.date⟩

instance : IsTrans StudyTask taskDateLe :=
  ⟨fun _ _ _ h1 h2 => le_trans h1 h2⟩

/-- The aggregated dashboard projection (`DashboardStats`). -/
structure DashboardStats where
  totalSubjects : Nat
  totalNotes : Nat
  totalFlashcards : Nat
  totalQuestions : Nat
  studyStreak : Int
  recentSummaries : List Summary
  upcomingTasks : List StudyTask
deriving DecidableEq

namespace MemStorage

/-- `MemStorage.getNotes`: filter by subject when a (truthy) id is given. -/
def getNotes (st : StorageState) (subjectId : Option String) : List Note :=
  match subjectId with
  | some sid => if sid = "" then st.notes else st.notes.filter (fun n => n.subjectId = sid)
  | none => st.notes

/-- `MemStorage.getSummaries`: filter by subject when a (truthy) id is
given, otherwise all summaries sorted by `createdAt` descending. -/
def getSummaries (st : StorageState) (subjectId : Option String) : List Summary :=
  match subjectId with
  | some sid =>
    if sid = "" then List.insertionSort summaryCreatedDesc st.summaries
    else st.summaries.filter (fun s => s.subjectId = sid)
  | none => List.insertionSort summaryCreatedDesc st.summaries

/-- `MemStorage.getFlashcards`: filter only when a truthy id other than the
sentinel `"all"` is given. -/
def getFlashcards (st : StorageState) (subjectId : Option String) : List Flashcard :=
  match subjectId with
  | some sid =>
    if sid ≠ "" ∧ sid ≠ "all" then st.flashcards.filter (fun f => f.subjectId = sid)
    else st.flashcards
  | none => st.flashcards

/-- `MemStorage.getQuestions`: filter only when a truthy id other than the
sentinel `"all"` is given. -/
def getQuestions (st : StorageState) (subjectId : Option String) : List Question :=
  match subjectId with
  | some sid =>
    if sid ≠ "" ∧ sid ≠ "all" then st.questions.filter (fun q => q.subjectId = sid)
    else st.questions
  | none => st.questions

/-- `MemStorage.deleteSubject`: manually cascade-delete all notes,
summaries, flashcards and questions referencing the subject, then delete
the subject itself; returns whether the subject existed. -/
def deleteSubject (st : StorageState) (id : String) : StorageState × Bool :=
  let st1 : StorageState :=
    { st with
      notes := st.notes.filter (fun n => n.subjectId ≠ id)
      summaries := st.summaries.filter (fun s => s.subjectId ≠ id)
      flashcards := st.flashcards.filter (fun f => f.subjectId ≠ id)
      questions := st.questions.filter (fun q => q.subjectId ≠ id) }
  (({ st1 with subjects := mapDelete Subject.id st1.subjects id }),
    (mapGet Subject.id st1.subjects id).isSome)

/-- `MemStorage.createNote`: insert the note (with generated id `freshId`
and timestamp `now`), then increment the owning subject's `notesCount` and
touch its `lastAccessed` if the subject exists. -/
def createNote (st : StorageState) (freshId now : String) (data : InsertNote) :
    StorageState × Note :=
  let note : Note :=
    { id := freshId
      subjectId := data.subjectId
      title := data.title
      content := data.content
      fileType := jsOrStr data.fileType "text"
      fileName := data.fileName
      createdAt := now }
  let st1 : StorageState := { st with notes := mapSet Note.id st.notes freshId note }
  let st2 : StorageState :=
    match mapGet Subject.id st1.subjects data.subjectId with
    | some s =>
      { st1 with
        subjects := mapSet Subject.id st1.subjects data.subjectId
          { s with notesCount := s.notesCount + 1, lastAccessed := now } }
    | none => st1
  (st2, note)

/-- `MemStorage.deleteNote`: decrement the owning subject's `notesCount`
(floored at zero) when the note exists, then delete the note; returns
whether the note existed. -/
def deleteNote (st : StorageState) (id : String) : StorageState × Bool :=
  let st1 : StorageState :=
    match mapGet Note.id st.notes id with
    | some note =>
      match mapGet Subject.id st.subjects note.subjectId with
      | some s =>
        { st with
          subjects := mapSet Subject.id st.subjects note.subjectId
            { s with notesCount := max 0 (s.notesCount - 1) } }
      | none => st
    | none => st
  (({ st1 with notes := mapDelete Note.id st1.notes id }),
    (mapGet Note.id st1.notes id).isSome)

/-- `MemStorage.createFlashcard`: insert the flashcard (difficulty defaults
to `"medium"`, `timesReviewed` starts at 0, no `lastReviewed`), then
increment the owning subject's `flashcardsCount` if the subject exists. -/
def createFlashcard (st : StorageState) (freshId : String) (data : InsertFlashcard) :
    StorageState × Flashcard :=
  let f : Flashcard :=
    { id := freshId
      subjectId := data.subjectId
      summaryId := data.summaryId
      front := data.front
      back := data.back
      difficulty := jsOrStr data.difficulty "medium"
      lastReviewed := none
      timesReviewed := 0 }
  let st1 : StorageState := { st with flashcards := mapSet Flashcard.id st.flashcards freshId f }
  let st2 : StorageState :=
    match mapGet Subject.id st1.subjects data.subjectId with
    | some s =>
      { st1 with
        subjects := mapSet Subject.id st1.subjects data.subjectId
          { s with flashcardsCount := s.flashcardsCount + 1 } }
    | none => st1
  (st2, f)

/-- `MemStorage.createFlashcards`: create the batch one record at a time
via `createFlashcard` (each item paired with its generated id). -/
def createFlashcards (st : StorageState) :
    List (String × InsertFlashcard) → StorageState × List Flashcard
  | [] => (st, [])
  | (i, d) :: rest =>
    let r1 := createFlashcard st i d
    let r2 := createFlashcards r1.1 rest
    (r2.1, r1.2 :: r2.2)

/-- `MemStorage.updateFlashcard`: shallow-merge the partial onto the stored
flashcard, then overwrite `lastReviewed` with now and `timesReviewed` with
the stored value plus one. -/
def updateFlashcard (st : StorageState) (id : String) (d : FlashcardPatch) (now : String) :
    StorageState × Option Flashcard :=
  match mapGet Flashcard.id st.flashcards id with
  | none => (st, none)
  | some f =>
    let updated : Flashcard :=
      { f.mergePatch d with lastReviewed := some now, timesReviewed := f.timesReviewed + 1 }
    (({ st with flashcards := mapSet Flashcard.id st.flashcards id updated }), some updated)

/-- `MemStorage.getStudyPlans`: all plans sorted by `createdAt` descending. -/
def getStudyPlans (st : StorageState) : List StudyPlan :=
  List.insertionSort planCreatedDesc st.studyPlans

/-- `MemStorage.getStudyPlan`. -/
def getStudyPlan (st : StorageState) (id : String) : Option StudyPlan :=
  mapGet StudyPlan.id st.studyPlans id

/-- `MemStorage.updateStudyPlanTask`: locate the plan, shallow-merge the
partial into every task whose id matches, and store the whole mutated plan
back; `none` when the plan is missing (a missing task is not detected). -/
def updateStudyPlanTask (st : StorageState) (planId taskId : String) (d : StudyTaskPatch) :
    StorageState × Option StudyPlan :=
  match mapGet StudyPlan.id st.studyPlans planId with
  | none => (st, none)
  | some plan =>
    let updatedTasks := plan.tasks.map (fun t => if t.id = taskId then t.mergePatch d else t)
    let updatedPlan : StudyPlan := { plan with tasks := updatedTasks }
    (({ st with studyPlans := mapSet StudyPlan.id st.studyPlans planId updatedPlan }),
      some updatedPlan)

/-- `MemStorage.getDashboardStats` with `today` (the ISO date string
computed at call time) passed explicitly: totals by full scan, the five
most recent summaries, and the incomplete today-or-later tasks of all plans
sorted ascending by date and capped at 5. -/
def getDashboardStats (st : StorageState) (today : String) : DashboardStats :=
  let summaries := getSummaries st none
  let plans := getStudyPlans st
  let upcoming :=
    (plans.flatMap StudyPlan.tasks).filter (fun t => !t.completed && decide (today ≤ t.date))
  { totalSubjects := st.subjects.length
    totalNotes := st.notes.length
    totalFlashcards := st.flashcards.length
    totalQuestions := st.questions.length
    studyStreak := 0
    recentSummaries := summaries.take 5
    upcomingTasks := (List.insertionSort taskDateLe upcoming).take 5 }

end MemStorage

namespace DatabaseStorage

/-- `DatabaseStorage.getNotes`: `select ... where eq(subjectId)` when a
(truthy) id is given, else a full select. -/
def getNotes (st : StorageState) (subjectId : Option String) : List Note :=
  match subjectId with
  | some sid => if sid = "" then st.notes else st.notes.filter (fun n => n.subjectId = sid)
  | none => st.notes

/-- `DatabaseStorage.getSummaries`: filtered select when a (truthy) id is
given, else all summaries ordered by `createdAt` descending. -/
def getSummaries (st : StorageState) (subjectId : Option String) : List Summary :=
  match subjectId with
  | some sid =>
    if sid = "" then List.insertionSort summaryCreatedDesc st.summaries
    else st.summaries.filter (fun s => s.subjectId = sid)
  | none => List.insertionSort summaryCreatedDesc st.summaries

/-- `DatabaseStorage.getFlashcards`: filtered select only when a truthy id
other than the sentinel `"all"` is given. -/
def getFlashcards (st : StorageState) (subjectId : Option String) : List Flashcard :=
  match subjectId with
  | some sid =>
    if sid ≠ "" ∧ sid ≠ "all" then st.flashcards.filter (fun f => f.subjectId = sid)
    else st.flashcards
  | none => st.flashcards

/-- `DatabaseStorage.getQuestions`: filtered select only when a truthy id
other than the sentinel `"all"` is given. -/
def getQuestions (st : StorageState) (subjectId : Option String) : List Question :=
  match subjectId with
  | some sid =>
    if sid ≠ "" ∧ sid ≠ "all" then st.questions.filter (fun q => q.subjectId = sid)
    else st.questions
  | none => st.questions

/-- `DatabaseStorage.deleteSubject`: explicit
`delete ... where eq(subjectId, id)` on each child table, then delete the
subject row; returns whether a subject row was deleted. -/
def deleteSubject (st : StorageState) (id : String) : StorageState × Bool :=
  let st1 : StorageState :=
    { st with
      notes := st.notes.filter (fun n => n.subjectId ≠ id)
      summaries := st.summaries.filter (fun s => s.subjectId ≠ id)
      flashcards := st.flashcards.filter (fun f => f.subjectId ≠ id)
      questions := st.questions.filter (fun q => q.subjectId ≠ id) }
  (({ st1 with subjects := mapDelete Subject.id st1.subjects id }),
    (mapGet Subject.id st1.subjects id).isSome)

/-- The row inserted by the relational `createFlashcards` for one payload:
the database fills defaults for the omitted columns (difficulty defaults to
`"medium"` when absent, `lastReviewed` null, `timesReviewed` 0). -/
def dbFlashcardRow (freshId : String) (d : InsertFlashcard) : Flashcard :=
  { id := freshId
    subjectId := d.subjectId
    summaryId := d.summaryId
    front := d.front
    back := d.back
    difficulty := d.difficulty.getD "medium"
    lastReviewed := none
    timesReviewed := 0 }

/-- `[...new Set(xs)]`: the distinct elements in order of first occurrence
(JS Set iteration order is insertion order). -/
def distinctFirst : List String → List String
  | [] => []
  | a :: as => a :: (distinctFirst as).filter (fun x => x ≠ a)

/-- One pass of the counter loop of the relational `createFlashcards`:
read the subject referenced by `sid`, and if present add the number of
batch items referencing `sid` to its `flashcardsCount`
(`(subject.flashcardsCount || 0) + count`). -/
def applyFlashcardCount (items : List (String × InsertFlashcard))
    (acc : StorageState) (sid : String) : StorageState :=
  let count : Int := (items.filter (fun p => p.2.subjectId = sid)).length
  match mapGet Subject.id acc.subjects sid with
  | some s =>
    { acc with
      subjects := mapSet Subject.id acc.subjects sid
        { s with flashcardsCount := jsOrInt (some s.flashcardsCount) 0 + count } }
  | none => acc

/-- `DatabaseStorage.createFlashcards`: insert the whole batch
(`insert ... values ... returning`), then for each distinct referenced
subject add that subject's per-batch count to its `flashcardsCount` in one
read-modify-write (skipped when the subject row is missing). -/
def createFlashcards (st : StorageState) (items : List (String × InsertFlashcard)) :
    StorageState × List Flashcard :=
  let rows := items.map (fun p => dbFlashcardRow p.1 p.2)
  let st1 : StorageState := { st with flashcards := st.flashcards ++ rows }
  let subjectIds := distinctFirst (items.map (fun p => p.2.subjectId))
  let st2 := subjectIds.foldl (applyFlashcardCount items) st1
  (st2, rows)

/-- `DatabaseStorage.updateFlashcard`:
`update ... set({ ...data, lastReviewed: new Date(), timesReviewed: (data.timesReviewed || 0) + 1 })`
— the new `timesReviewed` is computed from the partial, not from the stored
row. -/
def updateFlashcard (st : StorageState) (id : String) (d : FlashcardPatch) (now : String) :
    StorageState × Option Flashcard :=
  match mapGet Flashcard.id st.flashcards id with
  | none => (st, none)
  | some f =>
    let updated : Flashcard :=
      { f.mergePatch d with
        lastReviewed := some now
        timesReviewed := jsOrInt d.timesReviewed 0 + 1 }
    (({ st with flashcards := mapSet Flashcard.id st.flashcards id updated }), some updated)

/-- `DatabaseStorage.getStudyPlan`. -/
def getStudyPlan (st : StorageState) (id : String) : Option StudyPlan :=
  mapGet StudyPlan.id st.studyPlans id

/-- `DatabaseStorage.updateStudyPlanTask`: select the plan, shallow-merge
the partial into every task whose id matches, and write the whole task list
back; `none` when the plan row is missing. -/
def updateStudyPlanTask (st : StorageState) (planId taskId : String) (d : StudyTaskPatch) :
    StorageState × Option StudyPlan :=
  match mapGet StudyPlan.id st.studyPlans planId with
  | none => (st, none)
  | some plan =>
    let updatedTasks := plan.tasks.map (fun t => if t.id = taskId then t.mergePatch d else t)
    let updatedPlan : StudyPlan := { plan with tasks := updatedTasks }
    (({ st with studyPlans := mapSet StudyPlan.id st.studyPlans planId updatedPlan }),
      some updatedPlan)

end DatabaseStorage

/-- Sequentially create notes (each item paired with its generated id) with
a fixed clock value, as successive API requests would. -/
def createNotesSeq (now : String) : StorageState → List (String × InsertNote) → StorageState
  | st, [] => st
  | st, (i, d) :: rest => createNotesSeq now (MemStorage.createNote st i now d).1 rest

/-- Sequentially delete notes by id, as successive API requests would. -/
def deleteNotesSeq : StorageState → List String → StorageState
  | st, [] => st
  | st, i :: rest => deleteNotesSeq (MemStorage.deleteNote st i).1 rest

/-- The stored `notesCount` of a subject. -/
def subjectNotesCount (st : StorageState) (sid : String) : Option Int :=
  (mapGet Subject.id st.subjects sid).map Subject.notesCount

/-- The stored `flashcardsCount` of a subject. -/
def subjectFlashcardsCount (st : StorageState) (sid : String) : Option Int :=
  (mapGet Subject.id st.subjects sid).map Subject.flashcardsCount

/-- The route handler `PATCH /api/study-plans/:planId/tasks/:taskId`
(registerRoutes): 404 with no body when the storage update returns no plan,
otherwise 200 with the returned plan. -/
def routeUpdateStudyPlanTask (st : StorageState) (planId taskId : String)
    (d : StudyTaskPatch) : StorageState × Nat × Option StudyPlan :=
  let r := MemStorage.updateStudyPlanTask st planId taskId d
  match r.2 with
  | none => (r.1, 404, none)
  | some plan => (r.1, 200, some plan)

/-- A sample subject row for concrete witnesses. -/
def mkSubject (id : String) (nc fc qc : Int) : Subject :=
  { id := id
    name := "Biology"
    icon := "book"
    color := "green"
    notesCount := nc
    flashcardsCount := fc
    questionsCount := qc
    lastAccessed := "2026-01-01T00:00:00.000Z" }

/-- The empty storage state. -/
def emptyStorage : StorageState :=
  { subjects := [], notes := [], summaries := [], flashcards := [], questions := [], studyPlans := [] }

/-- A sample flashcard row for concrete witnesses. -/
def mkFlashcard (id sid : String) (reviews : Int) : Flashcard :=
  { id := id
    subjectId := sid
    summaryId := none
    front := "What is a cell?"
    back := "The basic unit of life."
    difficulty := "medium"
    lastReviewed := none
    timesReviewed := reviews }

/-- A sample study task for concrete witnesses. -/
def mkTask (id date : String) (done : Bool) : StudyTask :=
  { id := id
    topic := "Cells"
    subject := "Biology"
    duration := "1 hour"
    priority := "high"
    completed := done
    date := date
    timeSlot := none }

/-- A sample study plan for concrete witnesses. -/
def mkPlan (id : String) (tasks : List StudyTask) : StudyPlan :=
  { id := id
    title := "Plan"
    description := "Desc"
    startDate := "2026-01-01"
    endDate := "2026-01-31"
    tasks := tasks
    createdAt := "2026-01-01T00:00:00.000Z" }

/-- A sample note-creation payload for concrete witnesses. -/
def mkInsertNote (sid : String) : InsertNote :=
  { subjectId := sid
    title := "Cells"
    content := "Cells are the basic unit of life."
    fileType := none
    fileName := none }

/-- A sample flashcard-creation payload for concrete witnesses. -/
def mkInsertFlashcard (sid : String) : InsertFlashcard :=
  { subjectId := sid
    summaryId := none
    front := "Q"
    back := "A"
    difficulty := some "easy" }

/-- The note record `MemStorage.createNote` builds from a payload and its
generated id (with clock value `now`). -/
def noteOf (now : String) (p : String × InsertNote) : Note :=
  { id := p.1
    subjectId := p.2.subjectId
    title := p.2.title
    content := p.2.content
    fileType := jsOrStr p.2.fileType "text"
    fileName := p.2.fileName
    createdAt := now }

/-- A parsed summarize response with every expected field absent. -/
def emptySummaryResponse : SummaryResponse := {}

/-- A parsed flashcards response whose list has 11 elements. -/
def elevenFlashcards : FlashcardsResponse :=
  ⟨some (List.replicate 11 ⟨"Q", "A"⟩)⟩

section MapLemmas

variable {α : Type} {key : α → String}

theorem mapSet_of_fresh {l : List α} {id : String} {v : α}
    (h : ∀ x ∈ l, key x ≠ id) : mapSet key l id v = l ++ [v] := by
  have hany : l.any (fun x => key x = id) = false := by
    rw [List.any_eq_false]
    intro x hx
    simpa using h x hx
  simp [mapSet, hany]

theorem find?_map_replace_self {l : List α} {id : String} {v : α}
    (hv : key v = id) (h : l.any (fun x => key x = id) = true) :
    (l.map (fun x => if key x = id then v else x)).find? (fun x => key x = id) = some v := by
  induction l with
  | nil => simp at h
  | cons x xs ih =>
    by_cases hx : key x = id
    · simp [hx, hv]
    · simp only [List.map_cons, if_neg hx]
      rw [List.find?_cons_of_neg _ (by simpa using hx)]
      apply ih
      simpa [hx] using h

theorem find?_map_replace_ne {l : List α} {id id' : String} {v : α}
    (hv : key v = id) (hne : id' ≠ id) :
    (l.map (fun x => if key x = id then v else x)).find? (fun x => key x = id') =
      l.find? (fun x => key x = id') := by
  induction l with
  | nil => simp
  | cons x xs ih =>
    by_cases hx : key x = id
    · have h1 : ¬(key v = id') := by rw [hv]; exact fun hh => hne hh.symm
      have h2 : ¬(key x = id') := by rw [hx]; exact fun hh => hne hh.symm
      simp only [List.map_cons, if_pos hx]
      rw [List.find?_cons_of_neg _ (by simpa using h1),
        List.find?_cons_of_neg _ (by simpa using h2)]
      exact ih
    · simp only [List.map_cons, if_neg hx]
      by_cases hx' : key x = id'
      · rw [List.find?_cons_of_pos _ (by simpa using hx'),
          List.find?_cons_of_pos _ (by simpa using hx')]
      · rw [List.find?_cons_of_neg _ (by simpa using hx'),
          List.find?_cons_of_neg _ (by simpa using hx')]
        exact ih

theorem mapGet_mapSet_self {l : List α} {id : String} {v : α} (hv : key v = id) :
    mapGet key (mapSet key l id v) id = some v := by
  unfold mapGet mapSet
  by_cases h : l.any (fun x => key x = id) = true
  · rw [if_pos h]
    exact find?_map_replace_self hv h
  · rw [if_neg h, List.find?_append]
    have hnone : l.find? (fun x => key x = id) = none := by
      rw [List.find?_eq_none]
      intro x hx hc
      exact h (List.any_eq_true.mpr ⟨x, hx, hc⟩)
    rw [hnone]
    simp [hv]

theorem mapGet_mapSet_ne {l : List α} {id id' : String} {v : α}
    (hv : key v = id) (hne : id' ≠ id) :
    mapGet key (mapSet key l id v) id' = mapGet key l id' := by
  unfold mapGet mapSet
  by_cases h : l.any (fun x => key x = id) = true
  · rw [if_pos h]
    exact find?_map_replace_ne hv hne
  · rw [if_neg h, List.find?_append]
    have h1 : ¬(key v = id') := by rw [hv]; exact fun hh => hne hh.symm
    have hvnone : [v].find? (fun x => key x = id') = none := by
      rw [List.find?_eq_none]
      intro x hx
      rw [List.mem_singleton] at hx
      subst hx
      simpa using h1
    rw [hvnone]
    simp

theorem mapGet_mapDelete_ne {l : List α} {id id' : String} (hne : id' ≠ id) :
    mapGet key (mapDelete key l id) id' = mapGet key l id' := by
  unfold mapGet mapDelete
  induction l with
  | nil => simp
  | cons x xs ih =>
    by_cases hx : key x = id
    · have h2 : ¬(key x = id') := by rw [hx]; exact fun hh => hne hh.symm
      rw [List.filter_cons_of_neg (by simpa using hx)]
      rw [List.find?_cons_of_neg _ (by simpa using h2)]
      exact ih
    · rw [List.filter_cons_of_pos (by simpa using hx)]
      by_cases hx' : key x = id'
      · rw [List.find?_cons_of_pos _ (by simpa using hx'),
          List.find?_cons_of_pos _ (by simpa using hx')]
      · rw [List.find?_cons_of_neg _ (by simpa using hx'),
          List.find?_cons_of_neg _ (by simpa using hx')]
        exact ih

theorem mapGet_some_key {l : List α} {id : String} {a : α}
    (h : mapGet key l id = some a) : key a = id := by
  have hp := List.find?_some h
  simpa using hp

theorem mapGet_some_mem {l : List α} {id : String} {a : α}
    (h : mapGet key l id = some a) : a ∈ l :=
  List.mem_of_find?_eq_some h

theorem mapGet_append {l₁ l₂ : List α} {id : String} :
    mapGet key (l₁ ++ l₂) id = (mapGet key l₁ id).or (mapGet key l₂ id) :=
  List.find?_append

theorem mapGet_exists {l : List α} {id : String} (h : ∃ x ∈ l, key x = id) :
    ∃ a, mapGet key l id = some a ∧ a ∈ l := by
  have hs : (l.find? (fun x => key x = id)).isSome := by
    rw [List.find?_isSome]
    obtain ⟨x, hx, hk⟩ := h
    exact ⟨x, hx, by simpa using hk⟩
  obtain ⟨a, ha⟩ := Option.isSome_iff_exists.mp hs
  exact ⟨a, ha, List.mem_of_find?_eq_some ha⟩

theorem mapGet_eq_none_of_fresh {l : List α} {id : String}
    (h : ∀ x ∈ l, key x ≠ id) : mapGet key l id = none := by
  unfold mapGet
  rw [List.find?_eq_none]
  intro x hx hc
  exact h x hx (by simpa using hc)

end MapLemmas

theorem mem_memGetNotes {st : StorageState} {q : Option String} {n : Note}
    (h : n ∈ MemStorage.getNotes st q) : n ∈ st.notes := by
  rcases q with - | sid
  · exact h
  · by_cases hs : sid = ""
    · simp only [MemStorage.getNotes, if_pos hs] at h
      exact h
    · simp only [MemStorage.getNotes, if_neg hs] at h
      exact (List.mem_filter.mp h).1

theorem mem_memGetSummaries {st : StorageState} {q : Option String} {s : Summary}
    (h : s ∈ MemStorage.getSummaries st q) : s ∈ st.summaries := by
  rcases q with - | sid
  · exact (List.mem_insertionSort _).mp h
  · by_cases hs : sid = ""
    · simp only [MemStorage.getSummaries, if_pos hs] at h
      exact (List.mem_insertionSort _).mp h
    · simp only [MemStorage.getSummaries, if_neg hs] at h
      exact (List.mem_filter.mp h).1

theorem mem_memGetFlashcards {st : StorageState} {q : Option String} {f : Flashcard}
    (h : f ∈ MemStorage.getFlashcards st q) : f ∈ st.flashcards := by
  rcases q with - | sid
  · exact h
  · by_cases hs : sid ≠ "" ∧ sid ≠ "all"
    · simp only [MemStorage.getFlashcards, if_pos hs] at h
      exact (List.mem_filter.mp h).1
    · simp only [MemStorage.getFlashcards, if_neg hs] at h
      exact h

theorem mem_memGetQuestions {st : StorageState} {q : Option String} {x : Question}
    (h : x ∈ MemStorage.getQuestions st q) : x ∈ st.questions := by
  rcases q with - | sid
  · exact h
  · by_cases hs : sid ≠ "" ∧ sid ≠ "all"
    · simp only [MemStorage.getQuestions, if_pos hs] at h
      exact (List.mem_filter.mp h).1
    · simp only [MemStorage.getQuestions, if_neg hs] at h
      exact h

theorem mem_dbGetNotes {st : StorageState} {q : Option String} {n : Note}
    (h : n ∈ DatabaseStorage.getNotes st q) : n ∈ st.notes := by
  rcases q with - | sid
  · exact h
  · by_cases hs : sid = ""
    · simp only [DatabaseStorage.getNotes, if_pos hs] at h
      exact h
    · simp only [DatabaseStorage.getNotes, if_neg hs] at h
      exact (List.mem_filter.mp h).1

theorem mem_dbGetSummaries {st : StorageState} {q : Option String} {s : Summary}
    (h : s ∈ DatabaseStorage.getSummaries st q) : s ∈ st.summaries := by
  rcases q with - | sid
  · exact (List.mem_insertionSort _).mp h
  · by_cases hs : sid = ""
    · simp only [DatabaseStorage.getSummaries, if_pos hs] at h
      exact (List.mem_insertionSort _).mp h
    · simp only [DatabaseStorage.getSummaries, if_neg hs] at h
      exact (List.mem_filter.mp h).1

theorem mem_dbGetFlashcards {st : StorageState} {q : Option String} {f : Flashcard}
    (h : f ∈ DatabaseStorage.getFlashcards st q) : f ∈ st.flashcards := by
  rcases q with - | sid
  · exact h
  · by_cases hs : sid ≠ "" ∧ sid ≠ "all"
    · simp only [DatabaseStorage.getFlashcards, if_pos hs] at h
      exact (List.mem_filter.mp h).1
    · simp only [DatabaseStorage.getFlashcards, if_neg hs] at h
      exact h

theorem mem_dbGetQuestions {st : StorageState} {q : Option String} {x : Question}
    (h : x ∈ DatabaseStorage.getQuestions st q) : x ∈ st.questions := by
  rcases q with - | sid
  · exact h
  · by_cases hs : sid ≠ "" ∧ sid ≠ "all"
    · simp only [DatabaseStorage.getQuestions, if_pos hs] at h
      exact (List.mem_filter.mp h).1
    · simp only [DatabaseStorage.getQuestions, if_neg hs] at h
      exact h

/-- C10: for every storage state, querying flashcards (and questions) with
the literal subject id `"all"` returns exactly the unfiltered list, the
same as querying with no subject id at all, in both the in-memory and the
database-backed implementation — `"all"` is a no-filter sentinel, not a
subject id to match. -/
theorem spec_c10_all_sentinel (st : StorageState) :
    MemStorage.getFlashcards st (some "all") = MemStorage.getFlashcards st none ∧
    MemStorage.getQuestions st (some "all") = MemStorage.getQuestions st none ∧
    DatabaseStorage.getFlashcards st (some "all") = DatabaseStorage.getFlashcards st none ∧
    DatabaseStorage.getQuestions st (some "all") = DatabaseStorage.getQuestions st none := by
  refine ⟨?_, ?_, ?_, ?_⟩ <;>
    simp [MemStorage.getFlashcards, MemStorage.getQuestions,
      DatabaseStorage.getFlashcards, DatabaseStorage.getQuestions]

/-- C6: for every successfully parsed summarize response, every missing
collection field comes back as the empty list (in particular a missing
`definitions` yields `[]`, not an error), a missing `fullSummary` comes
back as the literal "Summary not available.", and present collection
fields pass through unchanged — the result record is always fully
populated. -/
theorem spec_c6_summarize_defaults (resp : SummaryResponse) :
    (resp.keyPoints = none → (summarizeContent resp).keyPoints = []) ∧
    (resp.definitions = none → (summarizeContent resp).definitions = []) ∧
    (resp.formulas = none → (summarizeContent resp).formulas = []) ∧
    (resp.mainConcepts = none → (summarizeContent resp).mainConcepts = []) ∧
    (resp.fullSummary = none → (summarizeContent resp).fullSummary = "Summary not available.") ∧
    (∀ l, resp.keyPoints = some l → (summarizeContent resp).keyPoints = l) ∧
    (∀ l, resp.definitions = some l → (summarizeContent resp).definitions = l) ∧
    (∀ l, resp.formulas = some l → (summarizeContent resp).formulas = l) ∧
    (∀ l, resp.mainConcepts = some l → (summarizeContent resp).mainConcepts = l) :=
  ⟨fun h => by simp [summarizeContent, h],
   fun h => by simp [summarizeContent, h],
   fun h => by simp [summarizeContent, h],
   fun h => by simp [summarizeContent, h],
   fun h => by simp [summarizeContent, h, jsOrStr],
   fun l h => by simp [summarizeContent, h],
   fun l h => by simp [summarizeContent, h],
   fun l h => by simp [summarizeContent, h],
   fun l h => by simp [summarizeContent, h]⟩

/-- Witness for C6 at the response with every field absent. -/
theorem spec_c6_summarize_defaults_witness :
    (emptySummaryResponse.keyPoints = none →
      (summarizeContent emptySummaryResponse).keyPoints = []) ∧
    (emptySummaryResponse.definitions = none →
      (summarizeContent emptySummaryResponse).definitions = []) ∧
    (emptySummaryResponse.formulas = none →
      (summarizeContent emptySummaryResponse).formulas = []) ∧
    (emptySummaryResponse.mainConcepts = none →
      (summarizeContent emptySummaryResponse).mainConcepts = []) ∧
    (emptySummaryResponse.fullSummary = none →
      (summarizeContent emptySummaryResponse).fullSummary = "Summary not available.") ∧
    (∀ l, emptySummaryResponse.keyPoints = some l →
      (summarizeContent emptySummaryResponse).keyPoints = l) ∧
    (∀ l, emptySummaryResponse.definitions = some l →
      (summarizeContent emptySummaryResponse).definitions = l) ∧
    (∀ l, emptySummaryResponse.formulas = some l →
      (summarizeContent emptySummaryResponse).formulas = l) ∧
    (∀ l, emptySummaryResponse.mainConcepts = some l →
      (summarizeContent emptySummaryResponse).mainConcepts = l) :=
  spec_c6_summarize_defaults emptySummaryResponse

/-- C1, counterexample: the claim says the parsed result list never has
more than 10 elements regardless of the model's JSON response; but with a
response containing 11 flashcards, `generateFlashcards` (requesting 25)
returns all 11 — the code clamps the requested count but never truncates
the parsed list. -/
theorem spec_c1_flashcards_cap_counterexample :
    ¬((generateFlashcards "Cells are the basic unit of life." 25 elevenFlashcards).length ≤ 10) := by
  decide

/-- C1, amended: for every content, requested count and parsed response,
the count is clamped to at most 10 before prompting and the prompt requests
exactly the clamped count; the parsed `flashcards` list is returned
unchanged (empty when the field is missing), so the result has at most 10
elements exactly when the model's list does. -/
theorem spec_c1_flashcards_clamp_amended (content : String) (count : Nat)
    (resp : FlashcardsResponse) :
    generateFlashcardsFinalCount count ≤ 10 ∧
    (∃ rest : String, generateFlashcardsPrompt content count =
      "Create " ++ (toString (generateFlashcardsFinalCount count) ++ rest)) ∧
    (resp.flashcards = none → generateFlashcards content count resp = []) ∧
    (∀ l, resp.flashcards = some l → generateFlashcards content count resp = l) ∧
    (∀ l, resp.flashcards = some l →
      ((generateFlashcards content count resp).length ≤ 10 ↔ l.length ≤ 10)) :=
  ⟨Nat.min_le_right _ _, ⟨_, rfl⟩,
   fun h => by simp [generateFlashcards, h],
   fun l h => by simp [generateFlashcards, h],
   fun l h => by simp [generateFlashcards, h]⟩

/-- Witness for C1 (amended) at a concrete request and response. -/
theorem spec_c1_flashcards_clamp_amended_witness :
    generateFlashcardsFinalCount 25 ≤ 10 ∧
    (∃ rest : String, generateFlashcardsPrompt "Cells" 25 =
      "Create " ++ (toString (generateFlashcardsFinalCount 25) ++ rest)) ∧
    (elevenFlashcards.flashcards = none →
      generateFlashcards "Cells" 25 elevenFlashcards = []) ∧
    (∀ l, elevenFlashcards.flashcards = some l →
      generateFlashcards "Cells" 25 elevenFlashcards = l) ∧
    (∀ l, elevenFlashcards.flashcards = some l →
      ((generateFlashcards "Cells" 25 elevenFlashcards).length ≤ 10 ↔ l.length ≤ 10)) :=
  spec_c1_flashcards_clamp_amended "Cells" 25 elevenFlashcards

/-- C2, counterexample: in the database-backed implementation, updating the
difficulty of a flashcard stored with `timesReviewed = 5` (no
`timesReviewed` in the partial) stores `timesReviewed = 1`, not `6`: the new
value is computed from the partial (`(data.timesReviewed || 0) + 1`), not
from the previously stored row. -/
theorem spec_c2_timesReviewed_counterexample :
    (DatabaseStorage.updateFlashcard
        { emptyStorage with flashcards := [mkFlashcard "f1" "s1" 5] }
        "f1" { difficulty := some "easy" } "2026-01-02T00:00:00.000Z").2.map
        Flashcard.timesReviewed = some 1 ∧
    ¬((DatabaseStorage.updateFlashcard
        { emptyStorage with flashcards := [mkFlashcard "f1" "s1" 5] }
        "f1" { difficulty := some "easy" } "2026-01-02T00:00:00.000Z").2.map
        Flashcard.timesReviewed = some (5 + 1)) := by
  constructor <;> decide

/-- C2, amended: for every stored flashcard, the in-memory
`updateFlashcard` stores and returns `timesReviewed` equal to the
previously stored value plus one, while the database-backed implementation
stores `(data.timesReviewed || 0) + 1`, computed from the supplied partial
independently of the stored value (so it equals 1 whenever the partial
omits `timesReviewed`). -/
theorem spec_c2_timesReviewed_amended (st : StorageState) (id now : String)
    (d : FlashcardPatch) (f : Flashcard)
    (h : mapGet Flashcard.id st.flashcards id = some f) :
    (MemStorage.updateFlashcard st id d now).2.map Flashcard.timesReviewed
      = some (f.timesReviewed + 1) ∧
    mapGet Flashcard.id (MemStorage.updateFlashcard st id d now).1.flashcards id
      = some { f.mergePatch d with
               lastReviewed := some now
               timesReviewed := f.timesReviewed + 1 } ∧
    (DatabaseStorage.updateFlashcard st id d now).2.map Flashcard.timesReviewed
      = some (jsOrInt d.timesReviewed 0 + 1) := by
  have hf : f.id = id := mapGet_some_key h
  have hid : (({ f.mergePatch d with
      lastReviewed := some now
      timesReviewed := f.timesReviewed + 1 } : Flashcard)).id = id := hf
  refine ⟨?_, ?_, ?_⟩
  · simp [MemStorage.updateFlashcard, h]
  · simp only [MemStorage.updateFlashcard, h]
    exact mapGet_mapSet_self hid
  · simp [DatabaseStorage.updateFlashcard, h]

/-- Witness for C2 (amended) at a concrete one-flashcard state. -/
theorem spec_c2_timesReviewed_amended_witness :
    (MemStorage.updateFlashcard { emptyStorage with flashcards := [mkFlashcard "f1" "s1" 5] }
        "f1" { difficulty := some "easy" } "T").2.map Flashcard.timesReviewed
      = some ((mkFlashcard "f1" "s1" 5).timesReviewed + 1) ∧
    mapGet Flashcard.id
        (MemStorage.updateFlashcard { emptyStorage with flashcards := [mkFlashcard "f1" "s1" 5] }
          "f1" { difficulty := some "easy" } "T").1.flashcards "f1"
      = some { (mkFlashcard "f1" "s1" 5).mergePatch { difficulty := some "easy" } with
               lastReviewed := some "T"
               timesReviewed := (mkFlashcard "f1" "s1" 5).timesReviewed + 1 } ∧
    (DatabaseStorage.updateFlashcard { emptyStorage with flashcards := [mkFlashcard "f1" "s1" 5] }
        "f1" { difficulty := some "easy" } "T").2.map Flashcard.timesReviewed
      = some (jsOrInt (FlashcardPatch.timesReviewed { difficulty := some "easy" }) 0 + 1) :=
  spec_c2_timesReviewed_amended _ "f1" "T" { difficulty := some "easy" }
    (mkFlashcard "f1" "s1" 5) (by decide)

/-- C9: when the plan exists but no task in it has the requested taskId,
`updateStudyPlanTask` returns the plan with its task list unchanged as a
success value, so the PATCH route answers 200 with the unmodified plan
rather than 404. -/
theorem spec_c9_missing_task_success (st : StorageState) (planId taskId : String)
    (d : StudyTaskPatch) (p : StudyPlan)
    (h : MemStorage.getStudyPlan st planId = some p)
    (hmiss : ∀ t ∈ p.tasks, t.id ≠ taskId) :
    (MemStorage.updateStudyPlanTask st planId taskId d).2 = some p ∧
    (routeUpdateStudyPlanTask st planId taskId d).2.1 = 200 ∧
    (routeUpdateStudyPlanTask st planId taskId d).2.2 = some p := by
  have hmap : p.tasks.map (fun t => if t.id = taskId then t.mergePatch d else t) = p.tasks := by
    have hall : ∀ t ∈ p.tasks, (if t.id = taskId then t.mergePatch d else t) = id t :=
      fun t ht => if_neg (hmiss t ht)
    rw [List.map_congr_left hall, List.map_id]
  have h' : mapGet StudyPlan.id st.studyPlans planId = some p := h
  have hupd : (MemStorage.updateStudyPlanTask st planId taskId d).2 = some p := by
    simp only [MemStorage.updateStudyPlanTask, h', hmap]
  exact ⟨hupd, by simp [routeUpdateStudyPlanTask, hupd], by simp [routeUpdateStudyPlanTask, hupd]⟩

/-- Witness for C9 at a concrete plan with one task and a missing taskId. -/
theorem spec_c9_missing_task_success_witness :
    (MemStorage.updateStudyPlanTask
        { emptyStorage with studyPlans := [mkPlan "p1" [mkTask "t1" "2026-01-10" false]] }
        "p1" "t2" { completed := some true }).2
      = some (mkPlan "p1" [mkTask "t1" "2026-01-10" false]) ∧
    (routeUpdateStudyPlanTask
        { emptyStorage with studyPlans := [mkPlan "p1" [mkTask "t1" "2026-01-10" false]] }
        "p1" "t2" { completed := some true }).2.1 = 200 ∧
    (routeUpdateStudyPlanTask
        { emptyStorage with studyPlans := [mkPlan "p1" [mkTask "t1" "2026-01-10" false]] }
        "p1" "t2" { completed := some true }).2.2
      = some (mkPlan "p1" [mkTask "t1" "2026-01-10" false]) :=
  spec_c9_missing_task_success _ "p1" "t2" { completed := some true }
    (mkPlan "p1" [mkTask "t1" "2026-01-10" false]) (by decide) (by decide)

/-- C4: after deleting a subject, no note, summary, flashcard or question
referencing it remains: every subsequent list query (with any subjectId
argument) excludes records whose subjectId is the deleted id, in both
storage implementations. -/
theorem spec_c4_delete_subject_cascade (st : StorageState) (id : String) (q : Option String) :
    (∀ n ∈ MemStorage.getNotes (MemStorage.deleteSubject st id).1 q, n.subjectId ≠ id) ∧
    (∀ s ∈ MemStorage.getSummaries (MemStorage.deleteSubject st id).1 q, s.subjectId ≠ id) ∧
    (∀ f ∈ MemStorage.getFlashcards (MemStorage.deleteSubject st id).1 q, f.subjectId ≠ id) ∧
    (∀ x ∈ MemStorage.getQuestions (MemStorage.deleteSubject st id).1 q, x.subjectId ≠ id) ∧
    (∀ n ∈ DatabaseStorage.getNotes (DatabaseStorage.deleteSubject st id).1 q, n.subjectId ≠ id) ∧
    (∀ s ∈ DatabaseStorage.getSummaries (DatabaseStorage.deleteSubject st id).1 q,
      s.subjectId ≠ id) ∧
    (∀ f ∈ DatabaseStorage.getFlashcards (DatabaseStorage.deleteSubject st id).1 q,
      f.subjectId ≠ id) ∧
    (∀ x ∈ DatabaseStorage.getQuestions (DatabaseStorage.deleteSubject st id).1 q,
      x.subjectId ≠ id) := by
  refine ⟨?_, ?_, ?_, ?_, ?_, ?_, ?_, ?_⟩
  · intro n hn
    have hmem := mem_memGetNotes hn
    simp only [MemStorage.deleteSubject] at hmem
    simpa using (List.mem_filter.mp hmem).2
  · intro s hs
    have hmem := mem_memGetSummaries hs
    simp only [MemStorage.deleteSubject] at hmem
    simpa using (List.mem_filter.mp hmem).2
  · intro f hf
    have hmem := mem_memGetFlashcards hf
    simp only [MemStorage.deleteSubject] at hmem
    simpa using (List.mem_filter.mp hmem).2
  · intro x hx
    have hmem := mem_memGetQuestions hx
    simp only [MemStorage.deleteSubject] at hmem
    simpa using (List.mem_filter.mp hmem).2
  · intro n hn
    have hmem := mem_dbGetNotes hn
    simp only [DatabaseStorage.deleteSubject] at hmem
    simpa using (List.mem_filter.mp hmem).2
  · intro s hs
    have hmem := mem_dbGetSummaries hs
    simp only [DatabaseStorage.deleteSubject] at hmem
    simpa using (List.mem_filter.mp hmem).2
  · intro f hf
    have hmem := mem_dbGetFlashcards hf
    simp only [DatabaseStorage.deleteSubject] at hmem
    simpa using (List.mem_filter.mp hmem).2
  · intro x hx
    have hmem := mem_dbGetQuestions hx
    simp only [DatabaseStorage.deleteSubject] at hmem
    simpa using (List.mem_filter.mp hmem).2

/-- Witness for C4 at a concrete populated state. -/
theorem spec_c4_delete_subject_cascade_witness :
    (∀ n ∈ MemStorage.getNotes
        (MemStorage.deleteSubject
          { emptyStorage with
            subjects := [mkSubject "s1" 1 1 1]
            flashcards := [mkFlashcard "f1" "s1" 0] } "s1").1 none, n.subjectId ≠ "s1") ∧
    (∀ s ∈ MemStorage.getSummaries
        (MemStorage.deleteSubject
          { emptyStorage with
            subjects := [mkSubject "s1" 1 1 1]
            flashcards := [mkFlashcard "f1" "s1" 0] } "s1").1 none, s.subjectId ≠ "s1") ∧
    (∀ f ∈ MemStorage.getFlashcards
        (MemStorage.deleteSubject
          { emptyStorage with
            subjects := [mkSubject "s1" 1 1 1]
            flashcards := [mkFlashcard "f1" "s1" 0] } "s1").1 none, f.subjectId ≠ "s1") ∧
    (∀ x ∈ MemStorage.getQuestions
        (MemStorage.deleteSubject
          { emptyStorage with
            subjects := [mkSubject "s1" 1 1 1]
            flashcards := [mkFlashcard "f1" "s1" 0] } "s1").1 none, x.subjectId ≠ "s1") ∧
    (∀ n ∈ DatabaseStorage.getNotes
        (DatabaseStorage.deleteSubject
          { emptyStorage with
            subjects := [mkSubject "s1" 1 1 1]
            flashcards := [mkFlashcard "f1" "s1" 0] } "s1").1 none, n.subjectId ≠ "s1") ∧
    (∀ s ∈ DatabaseStorage.getSummaries
        (DatabaseStorage.deleteSubject
          { emptyStorage with
            subjects := [mkSubject "s1" 1 1 1]
            flashcards := [mkFlashcard "f1" "s1" 0] } "s1").1 none, s.subjectId ≠ "s1") ∧
    (∀ f ∈ DatabaseStorage.getFlashcards
        (DatabaseStorage.deleteSubject
          { emptyStorage with
            subjects := [mkSubject "s1" 1 1 1]
            flashcards := [mkFlashcard "f1" "s1" 0] } "s1").1 none, f.subjectId ≠ "s1") ∧
    (∀ x ∈ DatabaseStorage.getQuestions
        (DatabaseStorage.deleteSubject
          { emptyStorage with
            subjects := [mkSubject "s1" 1 1 1]
            flashcards := [mkFlashcard "f1" "s1" 0] } "s1").1 none, x.subjectId ≠ "s1") :=
  spec_c4_delete_subject_cascade
    { emptyStorage with
      subjects := [mkSubject "s1" 1 1 1]
      flashcards := [mkFlashcard "f1" "s1" 0] } "s1" none

/-- C5: for every storage state and every value of today's date string, the
dashboard's `upcomingTasks` contains only incomplete tasks whose date is
today or later (none strictly before today), is sorted ascending by date,
and has at most 5 elements. -/
theorem spec_c5_dashboard_upcoming (st : StorageState) (today : String) :
    (∀ t ∈ (MemStorage.getDashboardStats st today).upcomingTasks,
      t.completed = false ∧ today ≤ t.date ∧ ¬(t.date < today)) ∧
    List.Pairwise taskDateLe (MemStorage.getDashboardStats st today).upcomingTasks ∧
    (MemStorage.getDashboardStats st today).upcomingTasks.length ≤ 5 := by
  have hup : (MemStorage.getDashboardStats st today).upcomingTasks
      = (List.insertionSort taskDateLe
          (((MemStorage.getStudyPlans st).flatMap StudyPlan.tasks).filter
            (fun t => !t.completed && decide (today ≤ t.date)))).take 5 := rfl
  refine ⟨?_, ?_, ?_⟩
  · intro t ht
    rw [hup] at ht
    have h1 := List.mem_of_mem_take ht
    have h2 := (List.mem_insertionSort _).mp h1
    have h3 := (List.mem_filter.mp h2).2
    rw [Bool.and_eq_true] at h3
    refine ⟨by simpa using h3.1, of_decide_eq_true h3.2, ?_⟩
    exact not_lt.mpr (of_decide_eq_true h3.2)
  · rw [hup]
    exact List.Pairwise.sublist (List.take_sublist _ _) (List.sorted_insertionSort _ _)
  · rw [hup]
    rw [List.length_take]
    exact min_le_left _ _

/-- Witness for C5 at a concrete state with complete, past and upcoming
tasks. -/
theorem spec_c5_dashboard_upcoming_witness :
    (∀ t ∈ (MemStorage.getDashboardStats
        { emptyStorage with
          studyPlans := [mkPlan "p1" [mkTask "t1" "2026-01-10" false,
            mkTask "t2" "2026-01-02" false, mkTask "t3" "2026-01-06" true]] }
        "2026-01-05").upcomingTasks,
      t.completed = false ∧ "2026-01-05" ≤ t.date ∧ ¬(t.date < "2026-01-05")) ∧
    List.Pairwise taskDateLe (MemStorage.getDashboardStats
        { emptyStorage with
          studyPlans := [mkPlan "p1" [mkTask "t1" "2026-01-10" false,
            mkTask "t2" "2026-01-02" false, mkTask "t3" "2026-01-06" true]] }
        "2026-01-05").upcomingTasks ∧
    (MemStorage.getDashboardStats
        { emptyStorage with
          studyPlans := [mkPlan "p1" [mkTask "t1" "2026-01-10" false,
            mkTask "t2" "2026-01-02" false, mkTask "t3" "2026-01-06" true]] }
        "2026-01-05").upcomingTasks.length ≤ 5 :=
  spec_c5_dashboard_upcoming
    { emptyStorage with
      studyPlans := [mkPlan "p1" [mkTask "t1" "2026-01-10" false,
        mkTask "t2" "2026-01-02" false, mkTask "t3" "2026-01-06" true]] }
    "2026-01-05"

/-- C7: for every stored study plan, updating a task shallow-merges the
supplied fields into every task whose id matches (so a toggled
`completed = true` is visible in a subsequent full-plan fetch), leaves all
other tasks as they were, and leaves every other field of the plan (title,
description, startDate, endDate, createdAt) unchanged — in both storage
implementations. -/
theorem spec_c7_update_plan_task (st : StorageState) (planId taskId : String)
    (d : StudyTaskPatch) (p : StudyPlan)
    (h : MemStorage.getStudyPlan st planId = some p) :
    (∃ p', (MemStorage.updateStudyPlanTask st planId taskId d).2 = some p' ∧
      MemStorage.getStudyPlan (MemStorage.updateStudyPlanTask st planId taskId d).1 planId
        = some p' ∧
      p'.id = p.id ∧ p'.title = p.title ∧ p'.description = p.description ∧
      p'.startDate = p.startDate ∧ p'.endDate = p.endDate ∧ p'.createdAt = p.createdAt ∧
      p'.tasks = p.tasks.map (fun t => if t.id = taskId then t.mergePatch d else t) ∧
      (∀ t ∈ p.tasks, t.id ≠ taskId → t ∈ p'.tasks) ∧
      (∀ t ∈ p.tasks, t.id = taskId → t.mergePatch d ∈ p'.tasks)) ∧
    (∃ p', (DatabaseStorage.updateStudyPlanTask st planId taskId d).2 = some p' ∧
      DatabaseStorage.getStudyPlan (DatabaseStorage.updateStudyPlanTask st planId taskId d).1
        planId = some p' ∧
      p'.id = p.id ∧ p'.title = p.title ∧ p'.description = p.description ∧
      p'.startDate = p.startDate ∧ p'.endDate = p.endDate ∧ p'.createdAt = p.createdAt ∧
      p'.tasks = p.tasks.map (fun t => if t.id = taskId then t.mergePatch d else t) ∧
      (∀ t ∈ p.tasks, t.id ≠ taskId → t ∈ p'.tasks) ∧
      (∀ t ∈ p.tasks, t.id = taskId → t.mergePatch d ∈ p'.tasks)) := by
  have h' : mapGet StudyPlan.id st.studyPlans planId = some p := h
  have hp : p.id = planId := mapGet_some_key h'
  have hpid : ({ p with
      tasks := p.tasks.map (fun t => if t.id = taskId then t.mergePatch d else t) }
        : StudyPlan).id = planId := hp
  constructor
  · refine ⟨{ p with
      tasks := p.tasks.map (fun t => if t.id = taskId then t.mergePatch d else t) },
      ?_, ?_, rfl, rfl, rfl, rfl, rfl, rfl, rfl, ?_, ?_⟩
    · simp only [MemStorage.updateStudyPlanTask, h']
    · simp only [MemStorage.updateStudyPlanTask, MemStorage.getStudyPlan, h']
      exact mapGet_mapSet_self hpid
    · intro t ht hne
      show t ∈ p.tasks.map (fun t => if t.id = taskId then t.mergePatch d else t)
      have hm : (if t.id = taskId then t.mergePatch d else t)
          ∈ p.tasks.map (fun t => if t.id = taskId then t.mergePatch d else t) :=
        List.mem_map_of_mem _ ht
      rwa [if_neg hne] at hm
    · intro t ht heq
      show t.mergePatch d ∈ p.tasks.map (fun t => if t.id = taskId then t.mergePatch d else t)
      have hm : (if t.id = taskId then t.mergePatch d else t)
          ∈ p.tasks.map (fun t => if t.id = taskId then t.mergePatch d else t) :=
        List.mem_map_of_mem _ ht
      rwa [if_pos heq] at hm
  · refine ⟨{ p with
      tasks := p.tasks.map (fun t => if t.id = taskId then t.mergePatch d else t) },
      ?_, ?_, rfl, rfl, rfl, rfl, rfl, rfl, rfl, ?_, ?_⟩
    · simp only [DatabaseStorage.updateStudyPlanTask, h']
    · simp only [DatabaseStorage.updateStudyPlanTask, DatabaseStorage.getStudyPlan, h']
      exact mapGet_mapSet_self hpid
    · intro t ht hne
      show t ∈ p.tasks.map (fun t => if t.id = taskId then t.mergePatch d else t)
      have hm : (if t.id = taskId then t.mergePatch d else t)
          ∈ p.tasks.map (fun t => if t.id = taskId then t.mergePatch d else t) :=
        List.mem_map_of_mem _ ht
      rwa [if_neg hne] at hm
    · intro t ht heq
      show t.mergePatch d ∈ p.tasks.map (fun t => if t.id = taskId then t.mergePatch d else t)
      have hm : (if t.id = taskId then t.mergePatch d else t)
          ∈ p.tasks.map (fun t => if t.id = taskId then t.mergePatch d else t) :=
        List.mem_map_of_mem _ ht
      rwa [if_pos heq] at hm

/-- Witness for C7: toggling `completed` on task t1 of a concrete
two-task plan. -/
theorem spec_c7_update_plan_task_witness :
    (∃ p', (MemStorage.updateStudyPlanTask
        { emptyStorage with studyPlans := [mkPlan "p1"
          [mkTask "t1" "2026-01-10" false, mkTask "t2" "2026-01-11" false]] }
        "p1" "t1" { completed := some true }).2 = some p' ∧
      MemStorage.getStudyPlan (MemStorage.updateStudyPlanTask
        { emptyStorage with studyPlans := [mkPlan "p1"
          [mkTask "t1" "2026-01-10" false, mkTask "t2" "2026-01-11" false]] }
        "p1" "t1" { completed := some true }).1 "p1" = some p' ∧
      p'.id = (mkPlan "p1"
        [mkTask "t1" "2026-01-10" false, mkTask "t2" "2026-01-11" false]).id ∧
      p'.title = (mkPlan "p1"
        [mkTask "t1" "2026-01-10" false, mkTask "t2" "2026-01-11" false]).title ∧
      p'.description = (mkPlan "p1"
        [mkTask "t1" "2026-01-10" false, mkTask "t2" "2026-01-11" false]).description ∧
      p'.startDate = (mkPlan "p1"
        [mkTask "t1" "2026-01-10" false, mkTask "t2" "2026-01-11" false]).startDate ∧
      p'.endDate = (mkPlan "p1"
        [mkTask "t1" "2026-01-10" false, mkTask "t2" "2026-01-11" false]).endDate ∧
      p'.createdAt = (mkPlan "p1"
        [mkTask "t1" "2026-01-10" false, mkTask "t2" "2026-01-11" false]).createdAt ∧
      p'.tasks = (mkPlan "p1"
        [mkTask "t1" "2026-01-10" false, mkTask "t2" "2026-01-11" false]).tasks.map
          (fun t => if t.id = "t1" then t.mergePatch { completed := some true } else t) ∧
      (∀ t ∈ (mkPlan "p1"
          [mkTask "t1" "2026-01-10" false, mkTask "t2" "2026-01-11" false]).tasks,
        t.id ≠ "t1" → t ∈ p'.tasks) ∧
      (∀ t ∈ (mkPlan "p1"
          [mkTask "t1" "2026-01-10" false, mkTask "t2" "2026-01-11" false]).tasks,
        t.id = "t1" → t.mergePatch { completed := some true } ∈ p'.tasks)) ∧
    (∃ p', (DatabaseStorage.updateStudyPlanTask
        { emptyStorage with studyPlans := [mkPlan "p1"
          [mkTask "t1" "2026-01-10" false, mkTask "t2" "2026-01-11" false]] }
        "p1" "t1" { completed := some true }).2 = some p' ∧
      DatabaseStorage.getStudyPlan (DatabaseStorage.updateStudyPlanTask
        { emptyStorage with studyPlans := [mkPlan "p1"
          [mkTask "t1" "2026-01-10" false, mkTask "t2" "2026-01-11" false]] }
        "p1" "t1" { completed := some true }).1 "p1" = some p' ∧
      p'.id = (mkPlan "p1"
        [mkTask "t1" "2026-01-10" false, mkTask "t2" "2026-01-11" false]).id ∧
      p'.title = (mkPlan "p1"
        [mkTask "t1" "2026-01-10" false, mkTask "t2" "2026-01-11" false]).title ∧
      p'.description = (mkPlan "p1"
        [mkTask "t1" "2026-01-10" false, mkTask "t2" "2026-01-11" false]).description ∧
      p'.startDate = (mkPlan "p1"
        [mkTask "t1" "2026-01-10" false, mkTask "t2" "2026-01-11" false]).startDate ∧
      p'.endDate = (mkPlan "p1"
        [mkTask "t1" "2026-01-10" false, mkTask "t2" "2026-01-11" false]).endDate ∧
      p'.createdAt = (mkPlan "p1"
        [mkTask "t1" "2026-01-10" false, mkTask "t2" "2026-01-11" false]).createdAt ∧
      p'.tasks = (mkPlan "p1"
        [mkTask "t1" "2026-01-10" false, mkTask "t2" "2026-01-11" false]).tasks.map
          (fun t => if t.id = "t1" then t.mergePatch { completed := some true } else t) ∧
      (∀ t ∈ (mkPlan "p1"
          [mkTask "t1" "2026-01-10" false, mkTask "t2" "2026-01-11" false]).tasks,
        t.id ≠ "t1" → t ∈ p'.tasks) ∧
      (∀ t ∈ (mkPlan "p1"
          [mkTask "t1" "2026-01-10" false, mkTask "t2" "2026-01-11" false]).tasks,
        t.id = "t1" → t.mergePatch { completed := some true } ∈ p'.tasks)) :=
  spec_c7_update_plan_task
    { emptyStorage with studyPlans := [mkPlan "p1"
      [mkTask "t1" "2026-01-10" false, mkTask "t2" "2026-01-11" false]] }
    "p1" "t1" { completed := some true }
    (mkPlan "p1" [mkTask "t1" "2026-01-10" false, mkTask "t2" "2026-01-11" false])
    (by decide)

theorem subjectNotesCount_elim {st : StorageState} {sid : String} {c : Int}
    (hc : subjectNotesCount st sid = some c) :
    ∃ s, mapGet Subject.id st.subjects sid = some s ∧ s.notesCount = c := by
  unfold subjectNotesCount at hc
  cases hget : mapGet Subject.id st.subjects sid with
  | none =>
    rw [hget] at hc
    exact absurd hc (by simp)
  | some s =>
    rw [hget] at hc
    simp only [Option.map_some', Option.some_inj] at hc
    exact ⟨s, rfl, hc⟩

theorem createNote_notes (st : StorageState) (i now : String) (d : InsertNote)
    (hfresh : ∀ n ∈ st.notes, n.id ≠ i) :
    (MemStorage.createNote st i now d).1.notes = st.notes ++ [noteOf now (i, d)] := by
  cases hs : mapGet Subject.id st.subjects d.subjectId <;>
    simp [MemStorage.createNote, hs, mapSet_of_fresh hfresh, noteOf]

theorem createNote_count (st : StorageState) (i now : String) (d : InsertNote)
    (sid : String) (c : Int) (hc : subjectNotesCount st sid = some c) :
    subjectNotesCount (MemStorage.createNote st i now d).1 sid
      = some (if d.subjectId = sid then c + 1 else c) := by
  obtain ⟨s, hs, hsc⟩ := subjectNotesCount_elim hc
  by_cases hd : d.subjectId = sid
  · subst hd
    have hsid : s.id = d.subjectId := mapGet_some_key hs
    have hkey : ({ s with notesCount := s.notesCount + 1, lastAccessed := now }
        : Subject).id = d.subjectId := hsid
    simp only [MemStorage.createNote, hs]
    unfold subjectNotesCount
    rw [mapGet_mapSet_self hkey]
    simp [hsc]
  · cases hget2 : mapGet Subject.id st.subjects d.subjectId with
    | none =>
      simp only [MemStorage.createNote, hget2, if_neg hd]
      exact hc
    | some s2 =>
      have hsid2 : s2.id = d.subjectId := mapGet_some_key hget2
      have hkey2 : ({ s2 with notesCount := s2.notesCount + 1, lastAccessed := now }
          : Subject).id = d.subjectId := hsid2
      have hne : sid ≠ d.subjectId := fun hh => hd hh.symm
      simp only [MemStorage.createNote, hget2, if_neg hd]
      unfold subjectNotesCount
      rw [mapGet_mapSet_ne hkey2 hne]
      exact hc

theorem createNotesSeq_spec (now sid : String) :
    ∀ (items : List (String × InsertNote)) (st : StorageState) (c : Int),
    subjectNotesCount st sid = some c →
    (∀ p ∈ items, p.2.subjectId = sid) →
    (items.map Prod.fst).Nodup →
    (∀ p ∈ items, ∀ n ∈ st.notes, n.id ≠ p.1) →
    subjectNotesCount (createNotesSeq now st items) sid
        = some (c + (items.length : Int)) ∧
    (createNotesSeq now st items).notes = st.notes ++ items.map (noteOf now) := by
  intro items
  induction items with
  | nil =>
    intro st c hc _ _ _
    exact ⟨by simpa using hc, by simp [createNotesSeq]⟩
  | cons p rest ih =>
    intro st c hc hown hnodup hfresh
    obtain ⟨i1, d1⟩ := p
    have hfresh0 : ∀ n ∈ st.notes, n.id ≠ i1 := fun n hn => hfresh (i1, d1) (by simp) n hn
    have hcount1 : subjectNotesCount (MemStorage.createNote st i1 now d1).1 sid
        = some (c + 1) := by
      have hstep := createNote_count st i1 now d1 sid c hc
      rw [if_pos (hown (i1, d1) (by simp))] at hstep
      exact hstep
    have hnotes1 := createNote_notes st i1 now d1 hfresh0
    have hnodup' : i1 ∉ rest.map Prod.fst ∧ (rest.map Prod.fst).Nodup := by
      rw [List.map_cons, List.nodup_cons] at hnodup
      exact hnodup
    have hfresh1 : ∀ q ∈ rest, ∀ n ∈ (MemStorage.createNote st i1 now d1).1.notes,
        n.id ≠ q.1 := by
      intro q hq n hn
      rw [hnotes1] at hn
      rcases List.mem_append.mp hn with h1 | h2
      · exact hfresh q (List.mem_cons_of_mem _ hq) n h1
      · rw [List.mem_singleton] at h2
        subst h2
        intro hcontra
        have hi1 : i1 = q.1 := hcontra
        exact hnodup'.1 (hi1 ▸ List.mem_map_of_mem Prod.fst hq)
    have hown1 : ∀ q ∈ rest, q.2.subjectId = sid :=
      fun q hq => hown q (List.mem_cons_of_mem _ hq)
    obtain ⟨ihc, ihn⟩ := ih (MemStorage.createNote st i1 now d1).1 (c + 1)
      hcount1 hown1 hnodup'.2 hfresh1
    have hstep : createNotesSeq now st ((i1, d1) :: rest)
        = createNotesSeq now (MemStorage.createNote st i1 now d1).1 rest := rfl
    constructor
    · rw [hstep, ihc]
      congr 1
      simp only [List.length_cons]
      push_cast
      ring
    · rw [hstep, ihn, hnotes1]
      simp

theorem deleteNote_spec (st : StorageState) (i sid : String) (k : Int) (n : Note)
    (hn : mapGet Note.id st.notes i = some n) (hns : n.subjectId = sid)
    (hc : subjectNotesCount st sid = some k) (hk : 1 ≤ k) :
    subjectNotesCount (MemStorage.deleteNote st i).1 sid = some (k - 1) ∧
    ∀ j, j ≠ i →
      mapGet Note.id (MemStorage.deleteNote st i).1.notes j = mapGet Note.id st.notes j := by
  obtain ⟨s, hs, hsc⟩ := subjectNotesCount_elim hc
  have hsid : s.id = sid := mapGet_some_key hs
  have hkey : ({ s with notesCount := max 0 (s.notesCount - 1) } : Subject).id = sid := hsid
  constructor
  · simp only [MemStorage.deleteNote, hn, hns, hs]
    unfold subjectNotesCount
    rw [mapGet_mapSet_self hkey]
    simp only [Option.map_some', Option.some_inj]
    rw [hsc]
    omega
  · intro j hj
    simp only [MemStorage.deleteNote, hn, hns, hs]
    exact mapGet_mapDelete_ne hj

theorem deleteNotesSeq_spec (sid : String) :
    ∀ (ids : List String) (st : StorageState) (k : Int),
    subjectNotesCount st sid = some k →
    ((ids.length : Int) ≤ k) →
    ids.Nodup →
    (∀ i ∈ ids, ∃ n, mapGet Note.id st.notes i = some n ∧ n.subjectId = sid) →
    subjectNotesCount (deleteNotesSeq st ids) sid = some (k - (ids.length : Int)) := by
  intro ids
  induction ids with
  | nil =>
    intro st k hc _ _ _
    simpa using hc
  | cons i rest ih =>
    intro st k hc hk hnodup hin
    obtain ⟨n, hn, hns⟩ := hin i (by simp)
    have hk1 : (1 : Int) ≤ k := by
      rw [List.length_cons] at hk
      push_cast at hk
      omega
    obtain ⟨hcount, hpres⟩ := deleteNote_spec st i sid k n hn hns hc hk1
    have hnodup' : i ∉ rest ∧ rest.Nodup := List.nodup_cons.mp hnodup
    have hin1 : ∀ j ∈ rest, ∃ n', mapGet Note.id (MemStorage.deleteNote st i).1.notes j
        = some n' ∧ n'.subjectId = sid := by
      intro j hj
      obtain ⟨n', hn', hns'⟩ := hin j (List.mem_cons_of_mem _ hj)
      have hji : j ≠ i := fun he => hnodup'.1 (he ▸ hj)
      exact ⟨n', by rw [hpres j hji]; exact hn', hns'⟩
    have hklen : ((rest.length : Int)) ≤ k - 1 := by
      rw [List.length_cons] at hk
      push_cast at hk
      omega
    have hrec := ih (MemStorage.deleteNote st i).1 (k - 1) hcount hklen hnodup'.2 hin1
    have hstep : deleteNotesSeq st (i :: rest)
        = deleteNotesSeq (MemStorage.deleteNote st i).1 rest := rfl
    rw [hstep, hrec]
    congr 1
    simp only [List.length_cons]
    push_cast
    ring

/-- C3: starting from a subject whose `notesCount` is 0 (as `createSubject`
initialises it), sequentially creating N notes owned by it and then
sequentially deleting M ≤ N of them leaves `notesCount = N - M`: each
create increments the counter and each delete decrements it (floored at
zero, never reached here). -/
theorem spec_c3_notes_count (st : StorageState) (now sid : String)
    (items : List (String × InsertNote)) (M : Nat)
    (h0 : subjectNotesCount st sid = some 0)
    (hown : ∀ p ∈ items, p.2.subjectId = sid)
    (hnodup : (items.map Prod.fst).Nodup)
    (hfresh : ∀ p ∈ items, ∀ n ∈ st.notes, n.id ≠ p.1)
    (hM : M ≤ items.length) :
    subjectNotesCount
        (deleteNotesSeq (createNotesSeq now st items) ((items.map Prod.fst).take M)) sid
      = some ((items.length : Int) - (M : Int)) := by
  obtain ⟨hc, hnts⟩ := createNotesSeq_spec now sid items st 0 h0 hown hnodup hfresh
  have hin : ∀ i ∈ (items.map Prod.fst).take M,
      ∃ n, mapGet Note.id (createNotesSeq now st items).notes i = some n ∧
        n.subjectId = sid := by
    intro i hi
    have himem : i ∈ items.map Prod.fst := List.mem_of_mem_take hi
    obtain ⟨p, hp, hpi⟩ := List.mem_map.mp himem
    have hfst : mapGet Note.id st.notes i = none :=
      mapGet_eq_none_of_fresh (fun n hn => by
        subst hpi
        exact hfresh p hp n hn)
    have hex : ∃ x ∈ items.map (noteOf now), Note.id x = i :=
      ⟨noteOf now p, List.mem_map_of_mem _ hp, by subst hpi; rfl⟩
    obtain ⟨a, ha, hamem⟩ := mapGet_exists hex
    refine ⟨a, ?_, ?_⟩
    · rw [hnts, mapGet_append, hfst]
      simpa using ha
    · obtain ⟨q, hq, hqa⟩ := List.mem_map.mp hamem
      rw [← hqa]
      exact hown q hq
  have hlen : ((((items.map Prod.fst).take M).length : Int)) ≤ 0 + (items.length : Int) := by
    rw [List.length_take, List.length_map]
    push_cast
    omega
  have hnodupT : ((items.map Prod.fst).take M).Nodup :=
    List.Nodup.sublist (List.take_sublist _ _) hnodup
  have hrec := deleteNotesSeq_spec sid ((items.map Prod.fst).take M)
    (createNotesSeq now st items) (0 + (items.length : Int)) hc hlen hnodupT hin
  rw [hrec]
  congr 1
  rw [List.length_take, List.length_map]
  push_cast
  omega

theorem subjectFlashcardsCount_elim {st : StorageState} {sid : String} {c : Int}
    (hc : subjectFlashcardsCount st sid = some c) :
    ∃ s, mapGet Subject.id st.subjects sid = some s ∧ s.flashcardsCount = c := by
  unfold subjectFlashcardsCount at hc
  cases hget : mapGet Subject.id st.subjects sid with
  | none =>
    rw [hget] at hc
    exact absurd hc (by simp)
  | some s =>
    rw [hget] at hc
    simp only [Option.map_some', Option.some_inj] at hc
    exact ⟨s, rfl, hc⟩

theorem jsOrInt_some_zero (t : Int) : jsOrInt (some t) 0 = t := by
  simp only [jsOrInt]
  split <;> omega

theorem jsOrStr_eq_getD {o : Option String} (h : o ≠ some "") (d : String) :
    jsOrStr o d = o.getD d := by
  cases o with
  | none => rfl
  | some s =>
    simp only [jsOrStr, Option.getD_some]
    rw [if_neg]
    intro he
    exact h (by rw [he])

theorem createFlashcard_row (st : StorageState) (i : String) (d : InsertFlashcard)
    (hd : d.difficulty ≠ some "") :
    (MemStorage.createFlashcard st i d).2 = DatabaseStorage.dbFlashcardRow i d := by
  cases hs : mapGet Subject.id st.subjects d.subjectId <;>
    simp [MemStorage.createFlashcard, DatabaseStorage.dbFlashcardRow, hs, jsOrStr_eq_getD hd]

theorem createFlashcard_flashcards (st : StorageState) (i : String) (d : InsertFlashcard)
    (hfresh : ∀ f ∈ st.flashcards, f.id ≠ i) (hd : d.difficulty ≠ some "") :
    (MemStorage.createFlashcard st i d).1.flashcards
      = st.flashcards ++ [DatabaseStorage.dbFlashcardRow i d] := by
  cases hs : mapGet Subject.id st.subjects d.subjectId <;>
    simp [MemStorage.createFlashcard, DatabaseStorage.dbFlashcardRow, hs,
      mapSet_of_fresh hfresh, jsOrStr_eq_getD hd]

theorem createFlashcard_count (st : StorageState) (i : String) (d : InsertFlashcard)
    (sid : String) (c : Int) (hc : subjectFlashcardsCount st sid = some c) :
    subjectFlashcardsCount (MemStorage.createFlashcard st i d).1 sid
      = some (if d.subjectId = sid then c + 1 else c) := by
  obtain ⟨s, hs, hsc⟩ := subjectFlashcardsCount_elim hc
  by_cases hd : d.subjectId = sid
  · subst hd
    have hsid : s.id = d.subjectId := mapGet_some_key hs
    have hkey : ({ s with flashcardsCount := s.flashcardsCount + 1 }
        : Subject).id = d.subjectId := hsid
    simp only [MemStorage.createFlashcard, hs]
    unfold subjectFlashcardsCount
    rw [mapGet_mapSet_self hkey]
    simp [hsc]
  · cases hget2 : mapGet Subject.id st.subjects d.subjectId with
    | none =>
      simp only [MemStorage.createFlashcard, hget2, if_neg hd]
      exact hc
    | some s2 =>
      have hsid2 : s2.id = d.subjectId := mapGet_some_key hget2
      have hkey2 : ({ s2 with flashcardsCount := s2.flashcardsCount + 1 }
          : Subject).id = d.subjectId := hsid2
      have hne : sid ≠ d.subjectId := fun hh => hd hh.symm
      simp only [MemStorage.createFlashcard, hget2, if_neg hd]
      unfold subjectFlashcardsCount
      rw [mapGet_mapSet_ne hkey2 hne]
      exact hc

theorem memCreateFlashcards_rows :
    ∀ (items : List (String × InsertFlashcard)) (st : StorageState),
    (items.map Prod.fst).Nodup →
    (∀ p ∈ items, ∀ f ∈ st.flashcards, f.id ≠ p.1) →
    (∀ p ∈ items, p.2.difficulty ≠ some "") →
    (MemStorage.createFlashcards st items).2
        = items.map (fun p => DatabaseStorage.dbFlashcardRow p.1 p.2) ∧
    (MemStorage.createFlashcards st items).1.flashcards
        = st.flashcards ++ items.map (fun p => DatabaseStorage.dbFlashcardRow p.1 p.2) := by
  intro items
  induction items with
  | nil =>
    intro st _ _ _
    exact ⟨rfl, by simp [MemStorage.createFlashcards]⟩
  | cons p rest ih =>
    intro st hnodup hfresh hdiff
    obtain ⟨i1, d1⟩ := p
    have hd1 : d1.difficulty ≠ some "" := hdiff (i1, d1) (by simp)
    have hfresh0 : ∀ f ∈ st.flashcards, f.id ≠ i1 :=
      fun f hf => hfresh (i1, d1) (by simp) f hf
    have hrow := createFlashcard_row st i1 d1 hd1
    have hflash := createFlashcard_flashcards st i1 d1 hfresh0 hd1
    have hnodup' : i1 ∉ rest.map Prod.fst ∧ (rest.map Prod.fst).Nodup := by
      rw [List.map_cons, List.nodup_cons] at hnodup
      exact hnodup
    have hfresh1 : ∀ q ∈ rest, ∀ f ∈ (MemStorage.createFlashcard st i1 d1).1.flashcards,
        f.id ≠ q.1 := by
      intro q hq f hf
      rw [hflash] at hf
      rcases List.mem_append.mp hf with h1 | h2
      · exact hfresh q (List.mem_cons_of_mem _ hq) f h1
      · rw [List.mem_singleton] at h2
        subst h2
        intro hcontra
        have hi1 : i1 = q.1 := hcontra
        exact hnodup'.1 (hi1 ▸ List.mem_map_of_mem Prod.fst hq)
    have hdiff1 : ∀ q ∈ rest, q.2.difficulty ≠ some "" :=
      fun q hq => hdiff q (List.mem_cons_of_mem _ hq)
    obtain ⟨ihr, ihf⟩ := ih (MemStorage.createFlashcard st i1 d1).1 hnodup'.2 hfresh1 hdiff1
    have hstep1 : (MemStorage.createFlashcards st ((i1, d1) :: rest)).2
        = (MemStorage.createFlashcard st i1 d1).2
          :: (MemStorage.createFlashcards (MemStorage.createFlashcard st i1 d1).1 rest).2 := rfl
    have hstep2 : (MemStorage.createFlashcards st ((i1, d1) :: rest)).1
        = (MemStorage.createFlashcards (MemStorage.createFlashcard st i1 d1).1 rest).1 := rfl
    constructor
    · rw [hstep1, hrow, ihr]
      simp
    · rw [hstep2, ihf, hflash]
      simp

theorem memCreateFlashcards_count (sid : String) :
    ∀ (items : List (String × InsertFlashcard)) (st : StorageState) (c : Int),
    subjectFlashcardsCount st sid = some c →
    subjectFlashcardsCount (MemStorage.createFlashcards st items).1 sid
      = some (c + ((items.filter (fun p => p.2.subjectId = sid)).length : Int)) := by
  intro items
  induction items with
  | nil =>
    intro st c hc
    simpa using hc
  | cons p rest ih =>
    intro st c hc
    obtain ⟨i1, d1⟩ := p
    have hstep := createFlashcard_count st i1 d1 sid c hc
    have hstep2 : (MemStorage.createFlashcards st ((i1, d1) :: rest)).1
        = (MemStorage.createFlashcards (MemStorage.createFlashcard st i1 d1).1 rest).1 := rfl
    by_cases hd : d1.subjectId = sid
    · rw [if_pos hd] at hstep
      have hrec := ih (MemStorage.createFlashcard st i1 d1).1 (c + 1) hstep
      rw [hstep2, hrec, List.filter_cons]
      have hcond : (decide (((i1, d1) : String × InsertFlashcard).2.subjectId = sid)) = true := by
        simpa using hd
      rw [if_pos hcond]
      congr 1
      simp only [List.length_cons]
      push_cast
      ring
    · rw [if_neg hd] at hstep
      have hrec := ih (MemStorage.createFlashcard st i1 d1).1 c hstep
      rw [hstep2, hrec, List.filter_cons]
      have hcond : ¬((decide (((i1, d1) : String × InsertFlashcard).2.subjectId = sid)) = true) := by
        simpa using hd
      rw [if_neg hcond]

theorem mem_distinctFirst {l : List String} {x : String} :
    x ∈ DatabaseStorage.distinctFirst l ↔ x ∈ l := by
  induction l with
  | nil => simp [DatabaseStorage.distinctFirst]
  | cons a as ih =>
    simp only [DatabaseStorage.distinctFirst, List.mem_cons, List.mem_filter]
    constructor
    · rintro (rfl | ⟨hx, -⟩)
      · exact Or.inl rfl
      · exact Or.inr (ih.mp hx)
    · rintro (rfl | hx)
      · exact Or.inl rfl
      · by_cases hxa : x = a
        · exact Or.inl hxa
        · refine Or.inr ⟨ih.mpr hx, ?_⟩
          simpa using hxa

theorem distinctFirst_nodup (l : List String) : (DatabaseStorage.distinctFirst l).Nodup := by
  induction l with
  | nil => simp [DatabaseStorage.distinctFirst]
  | cons a as ih =>
    rw [DatabaseStorage.distinctFirst, List.nodup_cons]
    constructor
    · intro hmem
      have hne := (List.mem_filter.mp hmem).2
      simp at hne
    · exact List.Nodup.filter _ ih

theorem applyFlashcardCount_flashcards (items : List (String × InsertFlashcard))
    (acc : StorageState) (sid : String) :
    (DatabaseStorage.applyFlashcardCount items acc sid).flashcards = acc.flashcards := by
  cases h : mapGet Subject.id acc.subjects sid <;>
    simp [DatabaseStorage.applyFlashcardCount, h]

theorem applyFlashcardCount_count (items : List (String × InsertFlashcard))
    (acc : StorageState) (sid q : String) (c : Int)
    (hc : subjectFlashcardsCount acc q = some c) :
    subjectFlashcardsCount (DatabaseStorage.applyFlashcardCount items acc sid) q
      = some (if q = sid
          then c + ((items.filter (fun p => p.2.subjectId = sid)).length : Int)
          else c) := by
  obtain ⟨s, hs, hsc⟩ := subjectFlashcardsCount_elim hc
  by_cases hq : q = sid
  · subst hq
    have hsid : s.id = q := mapGet_some_key hs
    have hkey : ({ s with flashcardsCount := jsOrInt (some s.flashcardsCount) 0
        + ((items.filter (fun p => p.2.subjectId = q)).length : Int) } : Subject).id = q := hsid
    simp only [DatabaseStorage.applyFlashcardCount, hs]
    unfold subjectFlashcardsCount
    rw [mapGet_mapSet_self hkey]
    simp only [Option.map_some', Option.some_inj]
    rw [jsOrInt_some_zero, hsc]
    simp
  · cases hget2 : mapGet Subject.id acc.subjects sid with
    | none =>
      simp only [DatabaseStorage.applyFlashcardCount, hget2, if_neg hq]
      exact hc
    | some s2 =>
      have hsid2 : s2.id = sid := mapGet_some_key hget2
      have hkey2 : ({ s2 with flashcardsCount := jsOrInt (some s2.flashcardsCount) 0
          + ((items.filter (fun p => p.2.subjectId = sid)).length : Int) } : Subject).id
            = sid := hsid2
      simp only [DatabaseStorage.applyFlashcardCount, hget2, if_neg hq]
      unfold subjectFlashcardsCount
      rw [mapGet_mapSet_ne hkey2 hq]
      exact hc

theorem foldCounts_flashcards (items : List (String × InsertFlashcard)) :
    ∀ (sids : List String) (acc : StorageState),
    (sids.foldl (DatabaseStorage.applyFlashcardCount items) acc).flashcards = acc.flashcards := by
  intro sids
  induction sids with
  | nil => intro acc; rfl
  | cons s0 rest ih =>
    intro acc
    rw [List.foldl_cons, ih, applyFlashcardCount_flashcards]

theorem foldCounts_count (items : List (String × InsertFlashcard)) :
    ∀ (sids : List String) (acc : StorageState), sids.Nodup →
    ∀ (q : String) (c : Int), subjectFlashcardsCount acc q = some c →
    subjectFlashcardsCount (sids.foldl (DatabaseStorage.applyFlashcardCount items) acc) q
      = some (if q ∈ sids
          then c + ((items.filter (fun p => p.2.subjectId = q)).length : Int)
          else c) := by
  intro sids
  induction sids with
  | nil =>
    intro acc _ q c hc
    simpa using hc
  | cons s0 rest ih =>
    intro acc hnodup q c hc
    have hnodup' := List.nodup_cons.mp hnodup
    rw [List.foldl_cons]
    have h1 := applyFlashcardCount_count items acc s0 q c hc
    by_cases hq0 : q = s0
    · subst hq0
      rw [if_pos rfl] at h1
      have h2 := ih (DatabaseStorage.applyFlashcardCount items acc q) hnodup'.2 q _ h1
      rw [if_neg hnodup'.1] at h2
      rw [h2, if_pos (List.mem_cons_self q rest)]
    · rw [if_neg hq0] at h1
      have h2 := ih (DatabaseStorage.applyFlashcardCount items acc s0) hnodup'.2 q c h1
      rw [h2]
      by_cases hqr : q ∈ rest
      · rw [if_pos hqr, if_pos (List.mem_cons_of_mem _ hqr)]
      · rw [if_neg hqr, if_neg (by simp [hq0, hqr])]

theorem dbCreateFlashcards_spec (st : StorageState) (items : List (String × InsertFlashcard)) :
    (DatabaseStorage.createFlashcards st items).2
      = items.map (fun p => DatabaseStorage.dbFlashcardRow p.1 p.2) ∧
    (DatabaseStorage.createFlashcards st items).1.flashcards
      = st.flashcards ++ items.map (fun p => DatabaseStorage.dbFlashcardRow p.1 p.2) ∧
    ∀ (q : String) (c : Int), subjectFlashcardsCount st q = some c →
      subjectFlashcardsCount (DatabaseStorage.createFlashcards st items).1 q
        = some (c + ((items.filter (fun p => p.2.subjectId = q)).length : Int)) := by
  refine ⟨rfl, ?_, ?_⟩
  · show (List.foldl (DatabaseStorage.applyFlashcardCount items)
        { st with flashcards := st.flashcards
            ++ items.map (fun p => DatabaseStorage.dbFlashcardRow p.1 p.2) }
        (DatabaseStorage.distinctFirst (items.map (fun p => p.2.subjectId)))).flashcards = _
    rw [foldCounts_flashcards]
  · intro q c hc
    have hc1 : subjectFlashcardsCount
        { st with flashcards := st.flashcards
            ++ items.map (fun p => DatabaseStorage.dbFlashcardRow p.1 p.2) } q = some c := hc
    have h2 := foldCounts_count items
      (DatabaseStorage.distinctFirst (items.map (fun p => p.2.subjectId)))
      { st with flashcards := st.flashcards
          ++ items.map (fun p => DatabaseStorage.dbFlashcardRow p.1 p.2) }
      (distinctFirst_nodup _) q c hc1
    show subjectFlashcardsCount (List.foldl (DatabaseStorage.applyFlashcardCount items)
        { st with flashcards := st.flashcards
            ++ items.map (fun p => DatabaseStorage.dbFlashcardRow p.1 p.2) }
        (DatabaseStorage.distinctFirst (items.map (fun p => p.2.subjectId)))) q = _
    rw [h2]
    by_cases hq : q ∈ DatabaseStorage.distinctFirst (items.map (fun p => p.2.subjectId))
    · rw [if_pos hq]
    · rw [if_neg hq]
      have hnone : (items.filter (fun p => p.2.subjectId = q)) = [] := by
        rw [List.filter_eq_nil_iff]
        intro p hp hpq
        have hqmem : q ∈ items.map (fun p => p.2.subjectId) :=
          List.mem_map.mpr ⟨p, hp, by simpa using hpq⟩
        exact hq (mem_distinctFirst.mpr hqmem)
      rw [hnone]
      simp

/-- C8, counterexample: the two batch-creation paths are not equivalent on
every batch referencing existing subjects.  For a payload whose difficulty
is the empty string, the in-memory path stores `"medium"`
(`data.difficulty || "medium"`, the empty string being falsy) while the
relational path inserts the empty string verbatim (the column default only
covers an absent value), so the inserted records differ.  The first
conjunct shows the input lies in the claim's domain (its subject exists). -/
theorem spec_c8_createFlashcards_equiv_counterexample :
    (∀ p ∈ ([("f1", ({ subjectId := "s1", summaryId := none, front := "Q", back := "A", difficulty := some "" } : InsertFlashcard))] : List (String × InsertFlashcard)),
      ∃ s ∈ ({ emptyStorage with subjects := [mkSubject "s1" 0 0 0] } : StorageState).subjects,
        s.id = p.2.subjectId) ∧
    (MemStorage.createFlashcards { emptyStorage with subjects := [mkSubject "s1" 0 0 0] }
        [("f1", ({ subjectId := "s1", summaryId := none, front := "Q", back := "A", difficulty := some "" } : InsertFlashcard))]).2
      ≠ (DatabaseStorage.createFlashcards
          { emptyStorage with subjects := [mkSubject "s1" 0 0 0] }
          [("f1", ({ subjectId := "s1", summaryId := none, front := "Q", back := "A", difficulty := some "" } : InsertFlashcard))]).2 := by
  constructor <;> decide

/-- C8, amended: for every batch of flashcard payloads (with generated ids)
whose subjects all exist and in which no payload carries an empty-string
difficulty (there JS `|| "medium"` and the column default part ways), the
in-memory `createFlashcards` (one record at a time) and the relational
`createFlashcards` (bulk insert, then one counter pass per distinct
subject) are behaviourally equivalent: both return the same created
records, both leave the flashcard table equal to the old table plus the
batch rows, and both increase every subject's `flashcardsCount` by the
number of batch records referencing it. -/
theorem spec_c8_createFlashcards_equiv (st : StorageState)
    (items : List (String × InsertFlashcard))
    (hnodup : (items.map Prod.fst).Nodup)
    (hfresh : ∀ p ∈ items, ∀ f ∈ st.flashcards, f.id ≠ p.1)
    (hex : ∀ p ∈ items, ∃ s ∈ st.subjects, s.id = p.2.subjectId)
    (hdiff : ∀ p ∈ items, p.2.difficulty ≠ some "") :
    (MemStorage.createFlashcards st items).2 = (DatabaseStorage.createFlashcards st items).2 ∧
    (MemStorage.createFlashcards st items).1.flashcards
      = st.flashcards ++ items.map (fun p => DatabaseStorage.dbFlashcardRow p.1 p.2) ∧
    (DatabaseStorage.createFlashcards st items).1.flashcards
      = st.flashcards ++ items.map (fun p => DatabaseStorage.dbFlashcardRow p.1 p.2) ∧
    ∀ (sid : String) (c : Int), subjectFlashcardsCount st sid = some c →
      subjectFlashcardsCount (MemStorage.createFlashcards st items).1 sid
          = some (c + ((items.filter (fun p => p.2.subjectId = sid)).length : Int)) ∧
      subjectFlashcardsCount (DatabaseStorage.createFlashcards st items).1 sid
          = some (c + ((items.filter (fun p => p.2.subjectId = sid)).length : Int)) := by
  obtain ⟨hmemrows, hmemflash⟩ := memCreateFlashcards_rows items st hnodup hfresh hdiff
  obtain ⟨hdbrows, hdbflash, hdbcount⟩ := dbCreateFlashcards_spec st items
  refine ⟨by rw [hmemrows, hdbrows], hmemflash, hdbflash, ?_⟩
  intro sid c hc
  exact ⟨memCreateFlashcards_count sid items st c hc, hdbcount sid c hc⟩

/-- Witness for C8: a two-record batch for one existing subject. -/
theorem spec_c8_createFlashcards_equiv_witness :
    (MemStorage.createFlashcards { emptyStorage with subjects := [mkSubject "s1" 0 0 0] }
        [("f1", mkInsertFlashcard "s1"), ("f2", mkInsertFlashcard "s1")]).2
      = (DatabaseStorage.createFlashcards { emptyStorage with subjects := [mkSubject "s1" 0 0 0] }
        [("f1", mkInsertFlashcard "s1"), ("f2", mkInsertFlashcard "s1")]).2 ∧
    (MemStorage.createFlashcards { emptyStorage with subjects := [mkSubject "s1" 0 0 0] }
        [("f1", mkInsertFlashcard "s1"), ("f2", mkInsertFlashcard "s1")]).1.flashcards
      = ({ emptyStorage with subjects := [mkSubject "s1" 0 0 0] } : StorageState).flashcards
        ++ [("f1", mkInsertFlashcard "s1"), ("f2", mkInsertFlashcard "s1")].map
            (fun p => DatabaseStorage.dbFlashcardRow p.1 p.2) ∧
    (DatabaseStorage.createFlashcards { emptyStorage with subjects := [mkSubject "s1" 0 0 0] }
        [("f1", mkInsertFlashcard "s1"), ("f2", mkInsertFlashcard "s1")]).1.flashcards
      = ({ emptyStorage with subjects := [mkSubject "s1" 0 0 0] } : StorageState).flashcards
        ++ [("f1", mkInsertFlashcard "s1"), ("f2", mkInsertFlashcard "s1")].map
            (fun p => DatabaseStorage.dbFlashcardRow p.1 p.2) ∧
    ∀ (sid : String) (c : Int),
      subjectFlashcardsCount { emptyStorage with subjects := [mkSubject "s1" 0 0 0] } sid
        = some c →
      subjectFlashcardsCount
          (MemStorage.createFlashcards { emptyStorage with subjects := [mkSubject "s1" 0 0 0] }
            [("f1", mkInsertFlashcard "s1"), ("f2", mkInsertFlashcard "s1")]).1 sid
        = some (c + (([("f1", mkInsertFlashcard "s1"), ("f2", mkInsertFlashcard "s1")].filter
            (fun p => p.2.subjectId = sid)).length : Int)) ∧
      subjectFlashcardsCount
          (DatabaseStorage.createFlashcards
            { emptyStorage with subjects := [mkSubject "s1" 0 0 0] }
            [("f1", mkInsertFlashcard "s1"), ("f2", mkInsertFlashcard "s1")]).1 sid
        = some (c + (([("f1", mkInsertFlashcard "s1"), ("f2", mkInsertFlashcard "s1")].filter
            (fun p => p.2.subjectId = sid)).length : Int)) :=
  spec_c8_createFlashcards_equiv { emptyStorage with subjects := [mkSubject "s1" 0 0 0] }
    [("f1", mkInsertFlashcard "s1"), ("f2", mkInsertFlashcard "s1")]
    (by decide) (by decide) (by decide) (by decide)

/-- Witness for C3: two notes created for a fresh subject, one deleted. -/
theorem spec_c3_notes_count_witness :
    subjectNotesCount
        (deleteNotesSeq
          (createNotesSeq "T" { emptyStorage with subjects := [mkSubject "s1" 0 0 0] }
            [("n1", mkInsertNote "s1"), ("n2", mkInsertNote "s1")])
          (([("n1", mkInsertNote "s1"), ("n2", mkInsertNote "s1")].map Prod.fst).take 1)) "s1"
      = some ((([("n1", mkInsertNote "s1"), ("n2", mkInsertNote "s1")].length : Int))
          - ((1 : Nat) : Int)) :=
  spec_c3_notes_count { emptyStorage with subjects := [mkSubject "s1" 0 0 0] } "T" "s1"
    [("n1", mkInsertNote "s1"), ("n2", mkInsertNote "s1")] 1
    (by decide) (by decide) (by decide) (by decide) (by decide)
